import Mathlib

set_option linter.unusedVariables false

/-!
Formal model of the ChessEngineGo repository.

The Go sources modelled here are `src/arbiter/chess.go` (namespace `arbiter`
below) and `src/engine1/engine.go` (namespace `engine1`).  Both packages
declare the identical data model (`BoardwithParameters`, the piece-index
constants, `findSetBit`, `countSetBits`, `getPieceAtPosition`, the arithmetic
helpers) — those shared, textually identical declarations live once in
namespace `Chess`.

Modelling conventions:
* Go `uint64` values become `Nat`; all board words produced by the programs
  stay below `2 ^ 64`, and theorems that need this bound take it as a
  hypothesis.  Go's bitwise complement `^x` on `uint64` is `x ^^^ (2^64 - 1)`.
* Go `int` becomes `Int`.  Go division and remainder truncate toward zero,
  which is `Int.tdiv` / `Int.tmod`.
* Go `uint64(1) << i` is total for `i ≥ 64` (it yields `0`); for negative `i`
  the Go runtime panics.  The model `shl` returns `0` in both out-of-range
  cases; every theorem below is stated on paths where the negative case is
  unreachable (or carries hypotheses making it so), matching the Go runtime
  behaviour on those paths.
* Go `for` loops over an integer range become folds over `intRange`; the
  pattern `for bitboard != 0 { pos := findSetBit(bitboard); ...; clear pos }`
  runs at most 64 iterations on a `uint64`, and is modelled with fuel 64.
* In-place mutation of the board struct becomes functional record update.
-/

namespace Chess

/-- Piece index `WhiteKing` from the Go `const` block. -/
def WhiteKing : Int := 0

/-- Piece index `WhiteQueen`. -/
def WhiteQueen : Int := 1

/-- Piece index `WhiteRook`. -/
def WhiteRook : Int := 2

/-- Piece index `WhiteBishop`. -/
def WhiteBishop : Int := 3

/-- Piece index `WhiteKnight`. -/
def WhiteKnight : Int := 4

/-- Piece index `WhitePawn`. -/
def WhitePawn : Int := 5

/-- Piece index `BlackKing`. -/
def BlackKing : Int := 6

/-- Piece index `BlackQueen`. -/
def BlackQueen : Int := 7

/-- Piece index `BlackRook`. -/
def BlackRook : Int := 8

/-- Piece index `BlackBishop`. -/
def BlackBishop : Int := 9

/-- Piece index `BlackKnight`. -/
def BlackKnight : Int := 10

/-- Piece index `BlackPawn`. -/
def BlackPawn : Int := 11

/-- The board state struct `BoardwithParameters` (the Go `ChessArbiter` is a
trivial wrapper holding exactly one such struct; the model passes the struct
directly). -/
structure BoardwithParameters where
  Board : Fin 12 → Nat
  TurnOfPlayer : Int
  EnPassantWhite : Nat
  EnPassantBlack : Nat
  WhiteCastle : Int
  BlackCastle : Int

/-- Alias matching the Go receiver type. -/
abbrev ChessArbiter := BoardwithParameters

/-- A move triple `[3]uint64`: from-bitboard, to-bitboard, promotion piece. -/
structure Move where
  fromB : Nat
  toB : Nat
  promo : Nat
deriving DecidableEq, Repr

/-- Go truncating division on `int`. -/
def idiv (a b : Int) : Int := Int.tdiv a b

/-- Go truncating remainder on `int`. -/
def imod (a b : Int) : Int := Int.tmod a b

/-- Go `uint64(1) << i`: zero for `i ≥ 64` (as in Go); the model also returns
zero for negative `i`, where the Go runtime would panic — all theorems stay on
paths where `i` is nonnegative. -/
def shl (i : Int) : Nat := if 0 ≤ i ∧ i < 64 then 1 <<< i.toNat else 0

/-- Go bitwise complement `^x` on `uint64`. -/
def compl64 (x : Nat) : Nat := x ^^^ (2 ^ 64 - 1)

/-- Go loop `for x := lo; x < hi; x++` as the list of visited values. -/
def intRange (lo hi : Int) : List Int :=
  (List.range (hi - lo).toNat).map (fun (n : Nat) => lo + (n : Int))

/-- Helper `findSetBit`: index of the lowest set bit, `-1` if none (the Go
loop scans indices 0–63 in order). -/
def findSetBit (bitmap : Nat) : Int :=
  match (List.range 64).find? (fun i => bitmap &&& (1 <<< i) != 0) with
  | some i => (i : Int)
  | none => -1

/-- Fuelled body of `countSetBits` (the Go loop `bitmap &= bitmap - 1` runs at
most 64 times on a `uint64`). -/
def countSetBitsAux : Nat → Nat → Nat
  | 0, _ => 0
  | fuel + 1, bitmap =>
    if bitmap = 0 then 0 else countSetBitsAux fuel (bitmap &&& (bitmap - 1)) + 1

/-- Helper `countSetBits`: Kernighan popcount loop. -/
def countSetBits (bitmap : Nat) : Nat := countSetBitsAux 64 bitmap

/-- Read `Board[i]` for an `int` index (all executed reads use indices 0–11). -/
def boardGet (B : Fin 12 → Nat) (i : Int) : Nat :=
  if h : 0 ≤ i ∧ i < 12 then B ⟨i.toNat, by omega⟩ else 0

/-- Write `Board[i]` for an `int` index (all executed writes use indices 0–11;
Go would panic out of range, the model leaves the board unchanged and theorems
about the write carry an in-range hypothesis where it matters). -/
def boardSet (B : Fin 12 → Nat) (i : Int) (v : Nat) : Fin 12 → Nat :=
  if h : 0 ≤ i ∧ i < 12 then Function.update B ⟨i.toNat, by omega⟩ v else B

/-- Helper `getPieceAtPosition`: scan the white boards 0–5 then the black
boards 6–11 for the given square, returning `(pieceType, color)` or
`(-1, -1)`. -/
def getPieceAtPosition (a : ChessArbiter) (position : Int) : Int × Int :=
  let bitMask := shl position
  match (List.finRange 12).find? (fun p => a.Board p &&& bitMask != 0) with
  | some p => ((p : Int), if (p : Nat) ≤ 5 then 0 else 1)
  | none => (-1, -1)

/-- Helper `abs` from the Go sources. -/
def iabs (x : Int) : Int := if x < 0 then -x else x

/-- Helper `sign` from the Go sources. -/
def isign (x : Int) : Int := if x < 0 then -1 else if x > 0 then 1 else 0

/-- Helper `min` from the Go sources. -/
def imin (a b : Int) : Int := if a < b then a else b

/-- Helper `max` from the Go sources. -/
def imax (a b : Int) : Int := if a > b then a else b

/-- Go bitwise AND on `int` operands (used on the castling-rights words). -/
def iand (a b : Int) : Int := Int.land a b

end Chess

namespace arbiter

open Chess

/-- Function `isValidPromotion` from `arbiter/chess.go`. -/
def isValidPromotion (promotionPiece : Int) : Bool :=
  if promotionPiece = -1 then false
  else
    [WhiteQueen, WhiteRook, WhiteBishop, WhiteKnight,
     BlackQueen, BlackRook, BlackBishop, BlackKnight].any
      (fun piece => promotionPiece = piece)

/-- Function `isValidPawnMove` from `arbiter/chess.go` (identical text in
`engine1/engine.go`). -/
def isValidPawnMove (a : ChessArbiter) (m : Move) : Bool :=
  let fromPos := findSetBit m.fromB
  let toPos := findSetBit m.toB
  let promotionPiece : Int := (m.promo : Int)
  let color := (getPieceAtPosition a fromPos).2
  let fromRank := idiv fromPos 8
  let fromFile := imod fromPos 8
  let toRank := idiv toPos 8
  let toFile := imod toPos 8
  let fileDiff := iabs (toFile - fromFile)
  let rankDiff := toRank - fromRank
  if color = 0 then
    if rankDiff = 1 ∧ fileDiff = 0 then
      if (getPieceAtPosition a toPos).1 ≠ -1 then false
      else if toRank = 7 then isValidPromotion promotionPiece
      else true
    else if rankDiff = 2 ∧ fileDiff = 0 ∧ fromRank = 1 then
      let midSquare := (fromRank + 1) * 8 + fromFile
      if (getPieceAtPosition a midSquare).1 ≠ -1 then false
      else if (getPieceAtPosition a toPos).1 ≠ -1 then false
      else true
    else if rankDiff = 1 ∧ fileDiff = 1 then
      let pc := getPieceAtPosition a toPos
      if pc.1 ≠ -1 ∧ pc.2 = 1 then
        if toRank = 7 then isValidPromotion promotionPiece else true
      else if pc.1 = -1 ∧ m.toB = a.EnPassantBlack then
        if boardGet a.Board BlackPawn &&& shl (toPos - 8) ≠ 0 then true else false
      else false
    else false
  else
    if rankDiff = -1 ∧ fileDiff = 0 then
      if (getPieceAtPosition a toPos).1 ≠ -1 then false
      else if toRank = 0 then isValidPromotion promotionPiece
      else true
    else if rankDiff = -2 ∧ fileDiff = 0 ∧ fromRank = 6 then
      let midSquare := (fromRank - 1) * 8 + fromFile
      if (getPieceAtPosition a midSquare).1 ≠ -1 then false
      else if (getPieceAtPosition a toPos).1 ≠ -1 then false
      else true
    else if rankDiff = -1 ∧ fileDiff = 1 then
      let pc := getPieceAtPosition a toPos
      if pc.1 ≠ -1 ∧ pc.2 = 0 then
        if toRank = 0 then isValidPromotion promotionPiece else true
      else if pc.1 = -1 ∧ m.toB = a.EnPassantWhite then
        if boardGet a.Board WhitePawn &&& shl (toPos + 8) ≠ 0 then true else false
      else false
    else false

/-- Function `isValidKingMove` from `arbiter/chess.go`.  Note: the three
check-related castling conditions exist only as comments in this source file;
the executable code tests only the rights flag, emptiness of the in-between
squares, and the rook's presence. -/
def isValidKingMove (a : ChessArbiter) (m : Move) : Bool :=
  let fromPos := findSetBit m.fromB
  let toPos := findSetBit m.toB
  let fromRank := idiv fromPos 8
  let fromFile := imod fromPos 8
  let toRank := idiv toPos 8
  let toFile := imod toPos 8
  let rankDiff := iabs (toRank - fromRank)
  let fileDiff := iabs (toFile - fromFile)
  if rankDiff ≤ 1 ∧ fileDiff ≤ 1 then true
  else
    let turnOfPlayer := a.TurnOfPlayer
    if rankDiff = 0 ∧ fileDiff = 2 then
      if turnOfPlayer = 0 ∧ fromRank = 0 ∧ fromFile = 4 then
        if toFile = 6 then
          if iand a.WhiteCastle 1 = 0 then false
          else if (getPieceAtPosition a 5).1 ≠ -1 then false
          else if (getPieceAtPosition a 6).1 ≠ -1 then false
          else if (getPieceAtPosition a 7).1 ≠ WhiteRook ∨
                  (getPieceAtPosition a 7).2 ≠ 0 then false
          else true
        else if toFile = 2 then
          if iand a.WhiteCastle 2 = 0 then false
          else if (getPieceAtPosition a 1).1 ≠ -1 then false
          else if (getPieceAtPosition a 2).1 ≠ -1 then false
          else if (getPieceAtPosition a 3).1 ≠ -1 then false
          else if (getPieceAtPosition a 0).1 ≠ WhiteRook ∨
                  (getPieceAtPosition a 0).2 ≠ 0 then false
          else true
        else false
      else if turnOfPlayer = 1 ∧ fromRank = 7 ∧ fromFile = 4 then
        if toFile = 6 then
          if iand a.BlackCastle 1 = 0 then false
          else if (getPieceAtPosition a 61).1 ≠ -1 then false
          else if (getPieceAtPosition a 62).1 ≠ -1 then false
          else if (getPieceAtPosition a 63).1 ≠ BlackRook ∨
                  (getPieceAtPosition a 63).2 ≠ 1 then false
          else true
        else if toFile = 2 then
          if iand a.BlackCastle 2 = 0 then false
          else if (getPieceAtPosition a 57).1 ≠ -1 then false
          else if (getPieceAtPosition a 58).1 ≠ -1 then false
          else if (getPieceAtPosition a 59).1 ≠ -1 then false
          else if (getPieceAtPosition a 56).1 ≠ BlackRook ∨
                  (getPieceAtPosition a 56).2 ≠ 1 then false
          else true
        else false
      else false
    else false

/-- Function `isValidBishopMove` from `arbiter/chess.go` (identical text in
`engine1/engine.go`). -/
def isValidBishopMove (a : ChessArbiter) (m : Move) : Bool :=
  let fromPos := findSetBit m.fromB
  let toPos := findSetBit m.toB
  let fromRank := idiv fromPos 8
  let fromFile := imod fromPos 8
  let toRank := idiv toPos 8
  let toFile := imod toPos 8
  let rankDiff := iabs (toRank - fromRank)
  let fileDiff := iabs (toFile - fromFile)
  if rankDiff ≠ fileDiff then false
  else
    let rankDir := isign (toRank - fromRank)
    let fileDir := isign (toFile - fromFile)
    (intRange 1 rankDiff).all (fun i =>
      let checkRank := fromRank + i * rankDir
      let checkFile := fromFile + i * fileDir
      (getPieceAtPosition a (checkRank * 8 + checkFile)).1 = -1)

/-- Function `isValidRookMove` from `arbiter/chess.go` (identical text in
`engine1/engine.go`). -/
def isValidRookMove (a : ChessArbiter) (m : Move) : Bool :=
  let fromPos := findSetBit m.fromB
  let toPos := findSetBit m.toB
  let fromRank := idiv fromPos 8
  let fromFile := imod fromPos 8
  let toRank := idiv toPos 8
  let toFile := imod toPos 8
  if fromRank ≠ toRank ∧ fromFile ≠ toFile then false
  else if fromRank = toRank then
    (intRange (imin fromFile toFile + 1) (imax fromFile toFile)).all (fun file =>
      (getPieceAtPosition a (fromRank * 8 + file)).1 = -1)
  else
    (intRange (imin fromRank toRank + 1) (imax fromRank toRank)).all (fun rank =>
      (getPieceAtPosition a (rank * 8 + fromFile)).1 = -1)

/-- Function `isValidKnightMove` from `arbiter/chess.go` (identical text in
`engine1/engine.go`). -/
def isValidKnightMove (a : ChessArbiter) (m : Move) : Bool :=
  let fromPos := findSetBit m.fromB
  let toPos := findSetBit m.toB
  let fromRank := idiv fromPos 8
  let fromFile := imod fromPos 8
  let toRank := idiv toPos 8
  let toFile := imod toPos 8
  let rankDiff := iabs (toRank - fromRank)
  let fileDiff := iabs (toFile - fromFile)
  (rankDiff = 2 ∧ fileDiff = 1) ∨ (rankDiff = 1 ∧ fileDiff = 2)

/-- Function `IsValidMove` from `arbiter/chess.go`: single-bit check on the
move words, ownership checks, then per-piece dispatch. -/
def IsValidMove (a : ChessArbiter) (m : Move) : Bool :=
  let turnOfPlayer := a.TurnOfPlayer
  let fromBit := findSetBit m.fromB
  let toBit := findSetBit m.toB
  if countSetBits m.fromB ≠ 1 ∨ countSetBits m.toB ≠ 1 then false
  else
    let fromPc := getPieceAtPosition a fromBit
    if fromPc.1 = -1 ∨ fromPc.2 ≠ turnOfPlayer then false
    else
      let toPc := getPieceAtPosition a toBit
      if toPc.1 ≠ -1 ∧ toPc.2 = turnOfPlayer then false
      else
        if fromPc.1 = WhitePawn ∨ fromPc.1 = BlackPawn then isValidPawnMove a m
        else if fromPc.1 = WhiteKing ∨ fromPc.1 = BlackKing then isValidKingMove a m
        else if fromPc.1 = WhiteBishop ∨ fromPc.1 = BlackBishop then isValidBishopMove a m
        else if fromPc.1 = WhiteRook ∨ fromPc.1 = BlackRook then isValidRookMove a m
        else if fromPc.1 = WhiteQueen ∨ fromPc.1 = BlackQueen then
          isValidBishopMove a m || isValidRookMove a m
        else if fromPc.1 = WhiteKnight ∨ fromPc.1 = BlackKnight then isValidKnightMove a m
        else false

end arbiter

namespace arbiter

open Chess

/-- Loop skeleton `for bitboard != 0 { pos := findSetBit(bitboard); ...;
bitboard &^= bit }` shared by the per-piece generators: `next pos` produces
the moves appended during one iteration.  Fuel 64 covers every `uint64`. -/
def pieceLoop (next : Int → List Move) : Nat → Nat → List Move
  | 0, _ => []
  | fuel + 1, bitboard =>
    if bitboard = 0 then []
    else
      let pos := findSetBit bitboard
      let bit := shl pos
      next pos ++ pieceLoop next fuel (bitboard &&& compl64 bit)

/-- The 8 king directions from `generateValidKingMoves`. -/
def kingDirections : List (Int × Int) :=
  [(-1, -1), (-1, 0), (-1, 1), (0, -1), (0, 1), (1, -1), (1, 0), (1, 1)]

/-- The 8 knight offsets from `generateValidKnightMoves`. -/
def knightOffsetPairs : List (Int × Int) :=
  [(-2, -1), (-2, 1), (-1, -2), (-1, 2), (1, -2), (1, 2), (2, -1), (2, 1)]

/-- Function `generateValidKingMoves` from `arbiter/chess.go`. -/
def generateValidKingMoves (a : ChessArbiter) (playerColor : Int) : List Move :=
  let kingPiece := if playerColor = 1 then BlackKing else WhiteKing
  let kingBitboard := boardGet a.Board kingPiece
  if kingBitboard = 0 then []
  else
    let kingPos := findSetBit kingBitboard
    let kingBit := shl kingPos
    let rank := idiv kingPos 8
    let file := imod kingPos 8
    let adjacent := kingDirections.filterMap (fun dir =>
      let newRank := rank + dir.1
      let newFile := file + dir.2
      if 0 ≤ newRank ∧ newRank < 8 ∧ 0 ≤ newFile ∧ newFile < 8 then
        let mv : Move := ⟨kingBit, shl (newRank * 8 + newFile), 0⟩
        if IsValidMove a mv then some mv else none
      else none)
    let whiteCastles :=
      if playerColor = 0 ∧ kingPos = 4 then
        (if iand a.WhiteCastle 1 ≠ 0 then
          let mv : Move := ⟨kingBit, 1 <<< 6, 0⟩
          if IsValidMove a mv then [mv] else []
        else []) ++
        (if iand a.WhiteCastle 2 ≠ 0 then
          let mv : Move := ⟨kingBit, 1 <<< 2, 0⟩
          if IsValidMove a mv then [mv] else []
        else [])
      else []
    let blackCastles :=
      if playerColor = 1 ∧ kingPos = 60 then
        (if iand a.BlackCastle 1 ≠ 0 then
          let mv : Move := ⟨kingBit, 1 <<< 62, 0⟩
          if IsValidMove a mv then [mv] else []
        else []) ++
        (if iand a.BlackCastle 2 ≠ 0 then
          let mv : Move := ⟨kingBit, 1 <<< 58, 0⟩
          if IsValidMove a mv then [mv] else []
        else [])
      else []
    adjacent ++ whiteCastles ++ blackCastles

/-- Candidate moves for one queen, from the body of
`generateValidQueenMoves`: horizontal, vertical, and the two diagonal
parameterisations, each filtered by `IsValidMove`. -/
def queenMovesAt (a : ChessArbiter) (queenPos : Int) : List Move :=
  let queenBit := shl queenPos
  let rank := idiv queenPos 8
  let file := imod queenPos 8
  ((intRange 0 8).filterMap (fun newFile =>
    if newFile = file then none
    else
      let mv : Move := ⟨queenBit, shl (rank * 8 + newFile), 0⟩
      if IsValidMove a mv then some mv else none)) ++
  ((intRange 0 8).filterMap (fun newRank =>
    if newRank = rank then none
    else
      let mv : Move := ⟨queenBit, shl (newRank * 8 + file), 0⟩
      if IsValidMove a mv then some mv else none)) ++
  ((intRange (-7) 8).filterMap (fun offset =>
    if offset = 0 then none
    else
      let newRank := rank + offset
      let newFile := file + offset
      if 0 ≤ newRank ∧ newRank < 8 ∧ 0 ≤ newFile ∧ newFile < 8 then
        let mv : Move := ⟨queenBit, shl (newRank * 8 + newFile), 0⟩
        if IsValidMove a mv then some mv else none
      else none)) ++
  ((intRange (-7) 8).filterMap (fun offset =>
    if offset = 0 then none
    else
      let newRank := rank + offset
      let newFile := file - offset
      if 0 ≤ newRank ∧ newRank < 8 ∧ 0 ≤ newFile ∧ newFile < 8 then
        let mv : Move := ⟨queenBit, shl (newRank * 8 + newFile), 0⟩
        if IsValidMove a mv then some mv else none
      else none))

/-- Function `generateValidQueenMoves` from `arbiter/chess.go`. -/
def generateValidQueenMoves (a : ChessArbiter) (playerColor : Int) : List Move :=
  let queenPiece := if playerColor = 1 then BlackQueen else WhiteQueen
  pieceLoop (queenMovesAt a) 64 (boardGet a.Board queenPiece)

/-- Candidate moves for one rook, from the body of `generateValidRookMoves`. -/
def rookMovesAt (a : ChessArbiter) (rookPos : Int) : List Move :=
  let rookBit := shl rookPos
  let rank := idiv rookPos 8
  let file := imod rookPos 8
  ((intRange 0 8).filterMap (fun newFile =>
    if newFile = file then none
    else
      let mv : Move := ⟨rookBit, shl (rank * 8 + newFile), 0⟩
      if IsValidMove a mv then some mv else none)) ++
  ((intRange 0 8).filterMap (fun newRank =>
    if newRank = rank then none
    else
      let mv : Move := ⟨rookBit, shl (newRank * 8 + file), 0⟩
      if IsValidMove a mv then some mv else none))

/-- Function `generateValidRookMoves` from `arbiter/chess.go`. -/
def generateValidRookMoves (a : ChessArbiter) (playerColor : Int) : List Move :=
  let rookPiece := if playerColor = 1 then BlackRook else WhiteRook
  pieceLoop (rookMovesAt a) 64 (boardGet a.Board rookPiece)

/-- Candidate moves for one bishop, from the body of
`generateValidBishopMoves`. -/
def bishopMovesAt (a : ChessArbiter) (bishopPos : Int) : List Move :=
  let bishopBit := shl bishopPos
  let rank := idiv bishopPos 8
  let file := imod bishopPos 8
  ((intRange (-7) 8).filterMap (fun offset =>
    if offset = 0 then none
    else
      let newRank := rank + offset
      let newFile := file + offset
      if 0 ≤ newRank ∧ newRank < 8 ∧ 0 ≤ newFile ∧ newFile < 8 then
        let mv : Move := ⟨bishopBit, shl (newRank * 8 + newFile), 0⟩
        if IsValidMove a mv then some mv else none
      else none)) ++
  ((intRange (-7) 8).filterMap (fun offset =>
    if offset = 0 then none
    else
      let newRank := rank + offset
      let newFile := file - offset
      if 0 ≤ newRank ∧ newRank < 8 ∧ 0 ≤ newFile ∧ newFile < 8 then
        let mv : Move := ⟨bishopBit, shl (newRank * 8 + newFile), 0⟩
        if IsValidMove a mv then some mv else none
      else none))

/-- Function `generateValidBishopMoves` from `arbiter/chess.go`. -/
def generateValidBishopMoves (a : ChessArbiter) (playerColor : Int) : List Move :=
  let bishopPiece := if playerColor = 1 then BlackBishop else WhiteBishop
  pieceLoop (bishopMovesAt a) 64 (boardGet a.Board bishopPiece)

/-- Candidate moves for one knight, from the body of
`generateValidKnightMoves`. -/
def knightMovesAt (a : ChessArbiter) (knightPos : Int) : List Move :=
  let knightBit := shl knightPos
  let rank := idiv knightPos 8
  let file := imod knightPos 8
  knightOffsetPairs.filterMap (fun offset =>
    let newRank := rank + offset.1
    let newFile := file + offset.2
    if 0 ≤ newRank ∧ newRank < 8 ∧ 0 ≤ newFile ∧ newFile < 8 then
      let mv : Move := ⟨knightBit, shl (newRank * 8 + newFile), 0⟩
      if IsValidMove a mv then some mv else none
    else none)

/-- Function `generateValidKnightMoves` from `arbiter/chess.go`. -/
def generateValidKnightMoves (a : ChessArbiter) (playerColor : Int) : List Move :=
  let knightPiece := if playerColor = 1 then BlackKnight else WhiteKnight
  pieceLoop (knightMovesAt a) 64 (boardGet a.Board knightPiece)

/-- Candidate moves for one pawn, from the body of `generateValidPawnMoves`:
single push (with the promotion fan-out), double push, the two diagonal
captures (with the promotion fan-out), then the en-passant block. -/
def pawnMovesAt (a : ChessArbiter) (playerColor : Int) (pawnPos : Int) : List Move :=
  let pawnBit := shl pawnPos
  let rank := idiv pawnPos 8
  let file := imod pawnPos 8
  let rankDir : Int := if playerColor = 1 then -1 else 1
  let promotionRank : Int := if playerColor = 1 then 0 else 7
  let startingRank : Int := if playerColor = 1 then 6 else 1
  let promotionPieces : List Int :=
    if playerColor = 0 then [WhiteQueen, WhiteRook, WhiteBishop, WhiteKnight]
    else [BlackQueen, BlackRook, BlackBishop, BlackKnight]
  let forward :=
    let newRank := rank + rankDir
    if 0 ≤ newRank ∧ newRank < 8 then
      let targetBit := shl (newRank * 8 + file)
      if newRank = promotionRank then
        promotionPieces.filterMap (fun promotionPiece =>
          let mv : Move := ⟨pawnBit, targetBit, promotionPiece.toNat⟩
          if IsValidMove a mv then some mv else none)
      else
        let mv : Move := ⟨pawnBit, targetBit, 0⟩
        if IsValidMove a mv then [mv] else []
    else []
  let double :=
    if rank = startingRank then
      let newRank := rank + 2 * rankDir
      if 0 ≤ newRank ∧ newRank < 8 then
        let mv : Move := ⟨pawnBit, shl (newRank * 8 + file), 0⟩
        if IsValidMove a mv then [mv] else []
      else []
    else []
  let captures := ([-1, 1] : List Int).flatMap (fun fileDiff =>
    let newFile := file + fileDiff
    let newRank := rank + rankDir
    if 0 ≤ newRank ∧ newRank < 8 ∧ 0 ≤ newFile ∧ newFile < 8 then
      let targetBit := shl (newRank * 8 + newFile)
      if newRank = promotionRank then
        promotionPieces.filterMap (fun promotionPiece =>
          let mv : Move := ⟨pawnBit, targetBit, promotionPiece.toNat⟩
          if IsValidMove a mv then some mv else none)
      else
        let mv : Move := ⟨pawnBit, targetBit, 0⟩
        if IsValidMove a mv then [mv] else []
    else [])
  let enPassant :=
    if playerColor = 0 then
      if a.EnPassantBlack ≠ 0 ∧ rank = 4 then
        let epSquare := findSetBit a.EnPassantBlack
        let epFile := imod epSquare 8
        if iabs (file - epFile) = 1 then
          if boardGet a.Board BlackPawn &&& shl (epSquare - 8) ≠ 0 then
            let mv : Move := ⟨pawnBit, a.EnPassantBlack, 0⟩
            if IsValidMove a mv then [mv] else []
          else []
        else []
      else []
    else if playerColor = 1 then
      if a.EnPassantWhite ≠ 0 ∧ rank = 3 then
        let epSquare := findSetBit a.EnPassantWhite
        let epFile := imod epSquare 8
        if iabs (file - epFile) = 1 then
          if boardGet a.Board WhitePawn &&& shl (epSquare + 8) ≠ 0 then
            let mv : Move := ⟨pawnBit, a.EnPassantWhite, 0⟩
            if IsValidMove a mv then [mv] else []
          else []
        else []
      else []
    else []
  forward ++ double ++ captures ++ enPassant

/-- Function `generateValidPawnMoves` from `arbiter/chess.go`. -/
def generateValidPawnMoves (a : ChessArbiter) (playerColor : Int) : List Move :=
  let pawnPiece := if playerColor = 1 then BlackPawn else WhitePawn
  pieceLoop (pawnMovesAt a playerColor) 64 (boardGet a.Board pawnPiece)

/-- Function `GenerateValidMoves` from `arbiter/chess.go`: concatenation of
the per-piece generators for the side to move. -/
def GenerateValidMoves (a : ChessArbiter) : List Move :=
  let playerColor := a.TurnOfPlayer
  generateValidKingMoves a playerColor ++
  generateValidQueenMoves a playerColor ++
  generateValidRookMoves a playerColor ++
  generateValidBishopMoves a playerColor ++
  generateValidKnightMoves a playerColor ++
  generateValidPawnMoves a playerColor

/-- Function `IsCheck` from `arbiter/chess.go`: flip the turn, generate the
opponent's moves, and look for one whose destination is the king's square.
The temporary in-place turn flip of the Go code becomes a record update on a
copy. -/
def IsCheck (a : ChessArbiter) : Bool :=
  let currentPlayerColor := a.TurnOfPlayer
  let kingPiece := if currentPlayerColor = 1 then BlackKing else WhiteKing
  let kingBitboard := boardGet a.Board kingPiece
  if kingBitboard = 0 then false
  else
    let kingPos := findSetBit kingBitboard
    let kingBB := shl kingPos
    let opponentMoves :=
      GenerateValidMoves { a with TurnOfPlayer := 1 - currentPlayerColor }
    opponentMoves.any (fun mv => mv.toB = kingBB)

/-- Function `clearCapturedPiece` from `arbiter/chess.go`: the loop clears the
destination bit in all twelve boards. -/
def clearCapturedPiece (B : Fin 12 → Nat) (positionBitboard : Nat) : Fin 12 → Nat :=
  fun i => B i &&& compl64 positionBitboard

/-- Function `doSimpleMove` from `arbiter/chess.go`. -/
def doSimpleMove (a : ChessArbiter) (fromBitboard toBitboard : Nat)
    (pieceType : Int) : ChessArbiter :=
  let B1 := clearCapturedPiece a.Board toBitboard
  let B2 := boardSet B1 pieceType (boardGet B1 pieceType &&& compl64 fromBitboard)
  let B3 := boardSet B2 pieceType (boardGet B2 pieceType ||| toBitboard)
  { a with Board := B3 }

/-- Function `doPawnMove` from `arbiter/chess.go`: en-passant capture removal,
normal capture removal, promotion or normal relocation, then the en-passant
bookkeeping (clear both fields, set one on a double push). -/
def doPawnMove (a : ChessArbiter) (fromBitboard toBitboard : Nat)
    (pieceType pieceColor : Int) (promotionPiece : Nat) : ChessArbiter :=
  let fromPos := findSetBit fromBitboard
  let toPos := findSetBit toBitboard
  let B1 :=
    if pieceColor = 0 ∧ toBitboard = a.EnPassantBlack then
      let capturedPawnBitboard := shl (toPos - 8)
      if boardGet a.Board BlackPawn &&& capturedPawnBitboard ≠ 0 then
        boardSet a.Board BlackPawn
          (boardGet a.Board BlackPawn &&& compl64 capturedPawnBitboard)
      else a.Board
    else if pieceColor = 1 ∧ toBitboard = a.EnPassantWhite then
      let capturedPawnBitboard := shl (toPos + 8)
      if boardGet a.Board WhitePawn &&& capturedPawnBitboard ≠ 0 then
        boardSet a.Board WhitePawn
          (boardGet a.Board WhitePawn &&& compl64 capturedPawnBitboard)
      else a.Board
    else a.Board
  let B2 := clearCapturedPiece B1 toBitboard
  let B3 :=
    if promotionPiece ≠ 0 then
      let B := boardSet B2 pieceType (boardGet B2 pieceType &&& compl64 fromBitboard)
      let promotionPieceType : Int := (promotionPiece : Int)
      boardSet B promotionPieceType (boardGet B promotionPieceType ||| toBitboard)
    else
      let B := boardSet B2 pieceType (boardGet B2 pieceType &&& compl64 fromBitboard)
      boardSet B pieceType (boardGet B pieceType ||| toBitboard)
  let fromRank := idiv fromPos 8
  let fromFile := imod fromPos 8
  let toRank := idiv toPos 8
  if pieceColor = 0 ∧ fromRank = 1 ∧ toRank = 3 then
    { a with Board := B3, EnPassantWhite := 0,
             EnPassantBlack := shl ((fromRank + 1) * 8 + fromFile) }
  else if pieceColor = 1 ∧ fromRank = 6 ∧ toRank = 4 then
    { a with Board := B3, EnPassantBlack := 0,
             EnPassantWhite := shl ((fromRank - 1) * 8 + fromFile) }
  else
    { a with Board := B3, EnPassantWhite := 0, EnPassantBlack := 0 }

/-- Function `doKingMove` from `arbiter/chess.go`: castling rook relocation
and rights clearing, then rights clearing for any king move, capture removal,
and the king relocation. -/
def doKingMove (a : ChessArbiter) (fromBitboard toBitboard : Nat)
    (pieceType pieceColor : Int) : ChessArbiter :=
  let fromPos := findSetBit fromBitboard
  let toPos := findSetBit toBitboard
  let fromFile := imod fromPos 8
  let toFile := imod toPos 8
  let afterCastle : ChessArbiter :=
    if iabs (toFile - fromFile) = 2 then
      if pieceColor = 0 then
        let B :=
          if toFile > fromFile then
            let B1 := boardSet a.Board WhiteRook
              (boardGet a.Board WhiteRook &&& compl64 (1 <<< 7))
            boardSet B1 WhiteRook (boardGet B1 WhiteRook ||| (1 <<< 5))
          else
            let B1 := boardSet a.Board WhiteRook
              (boardGet a.Board WhiteRook &&& compl64 (1 <<< 0))
            boardSet B1 WhiteRook (boardGet B1 WhiteRook ||| (1 <<< 3))
        { a with Board := B, WhiteCastle := 0 }
      else
        let B :=
          if toFile > fromFile then
            let B1 := boardSet a.Board BlackRook
              (boardGet a.Board BlackRook &&& compl64 (1 <<< 63))
            boardSet B1 BlackRook (boardGet B1 BlackRook ||| (1 <<< 61))
          else
            let B1 := boardSet a.Board BlackRook
              (boardGet a.Board BlackRook &&& compl64 (1 <<< 56))
            boardSet B1 BlackRook (boardGet B1 BlackRook ||| (1 <<< 59))
        { a with Board := B, BlackCastle := 0 }
    else a
  let afterRights : ChessArbiter :=
    if pieceColor = 0 then { afterCastle with WhiteCastle := 0 }
    else { afterCastle with BlackCastle := 0 }
  let B1 := clearCapturedPiece afterRights.Board toBitboard
  let B2 := boardSet B1 pieceType (boardGet B1 pieceType &&& compl64 fromBitboard)
  let B3 := boardSet B2 pieceType (boardGet B2 pieceType ||| toBitboard)
  { afterRights with Board := B3 }

/-- Function `DoMove` from `arbiter/chess.go`: dispatch on the piece standing
on the from-square (no turn flip, no validity check). -/
def DoMove (a : ChessArbiter) (m : Move) : ChessArbiter :=
  let fromPos := findSetBit m.fromB
  let fromPc := getPieceAtPosition a fromPos
  if fromPc.1 = WhitePawn ∨ fromPc.1 = BlackPawn then
    doPawnMove a m.fromB m.toB fromPc.1 fromPc.2 m.promo
  else if fromPc.1 = WhiteKing ∨ fromPc.1 = BlackKing then
    doKingMove a m.fromB m.toB fromPc.1 fromPc.2
  else if fromPc.1 = WhiteQueen ∨ fromPc.1 = BlackQueen ∨
          fromPc.1 = WhiteRook ∨ fromPc.1 = BlackRook ∨
          fromPc.1 = WhiteBishop ∨ fromPc.1 = BlackBishop ∨
          fromPc.1 = WhiteKnight ∨ fromPc.1 = BlackKnight then
    doSimpleMove a m.fromB m.toB fromPc.1
  else a

end arbiter

namespace engine1

open Chess

/-- Fuelled rook-direction ray walk from the sliding-piece section of
`isSquareAttacked` in `engine1/engine.go` (`for i := 0; i < 7; i++` with
`pos += dir`): stop off the board or at a crossed rank boundary for the
horizontal directions, report an attack iff the first occupied square found
holds the attacker's rook or queen. -/
def slideRookAux (a : ChessArbiter) (rookPiece queenPiece dir : Int) :
    Nat → Int → Bool
  | 0, _ => false
  | fuel + 1, pos =>
    let pos1 := pos + dir
    if pos1 < 0 ∨ 64 ≤ pos1 then false
    else if (dir = -1 ∨ dir = 1) ∧ idiv pos1 8 ≠ idiv (pos1 - dir) 8 then false
    else
      let posBit := shl pos1
      match (List.finRange 12).find? (fun p => a.Board p &&& posBit != 0) with
      | some p =>
        if (p : Int) = rookPiece ∨ (p : Int) = queenPiece then true else false
      | none => slideRookAux a rookPiece queenPiece dir fuel pos1

/-- Fuelled bishop-direction ray walk from `isSquareAttacked`: consecutive
steps must change rank and file by exactly one each. -/
def slideBishopAux (a : ChessArbiter) (bishopPiece queenPiece dir : Int) :
    Nat → Int → Bool
  | 0, _ => false
  | fuel + 1, pos =>
    let pos1 := pos + dir
    if pos1 < 0 ∨ 64 ≤ pos1 then false
    else
      let rankDiff := iabs (idiv pos1 8 - idiv (pos1 - dir) 8)
      let fileDiff := iabs (imod pos1 8 - imod (pos1 - dir) 8)
      if rankDiff ≠ fileDiff ∨ rankDiff ≠ 1 then false
      else
        let posBit := shl pos1
        match (List.finRange 12).find? (fun p => a.Board p &&& posBit != 0) with
        | some p =>
          if (p : Int) = bishopPiece ∨ (p : Int) = queenPiece then true else false
        | none => slideBishopAux a bishopPiece queenPiece dir fuel pos1

/-- Function `isSquareAttacked` from `engine1/engine.go`: pawn, knight, king,
then rook-like and bishop-like rays, without consulting move generation. -/
def isSquareAttacked (a : ChessArbiter) (square : Int) (attackerColor : Int) : Bool :=
  let pawnHit : Bool :=
    if attackerColor = 0 then
      if square > 7 then
        (if imod square 8 > 0 then
          let pawnPos := square - 9
          if pawnPos ≥ 0 then
            boardGet a.Board WhitePawn &&& shl pawnPos ≠ 0
          else false
        else false) ||
        (if imod square 8 < 7 then
          let pawnPos := square - 7
          if pawnPos ≥ 0 then
            boardGet a.Board WhitePawn &&& shl pawnPos ≠ 0
          else false
        else false)
      else false
    else
      if square < 56 then
        (if imod square 8 > 0 then
          let pawnPos := square + 7
          if pawnPos < 64 then
            boardGet a.Board BlackPawn &&& shl pawnPos ≠ 0
          else false
        else false) ||
        (if imod square 8 < 7 then
          let pawnPos := square + 9
          if pawnPos < 64 then
            boardGet a.Board BlackPawn &&& shl pawnPos ≠ 0
          else false
        else false)
      else false
  let knightPiece := if attackerColor = 1 then BlackKnight else WhiteKnight
  let knightHit : Bool :=
    ([-17, -15, -10, -6, 6, 10, 15, 17] : List Int).any (fun offset =>
      let attackPos := square + offset
      if 0 ≤ attackPos ∧ attackPos < 64 then
        let rankDiff := iabs (idiv attackPos 8 - idiv square 8)
        let fileDiff := iabs (imod attackPos 8 - imod square 8)
        if (rankDiff = 2 ∧ fileDiff = 1) ∨ (rankDiff = 1 ∧ fileDiff = 2) then
          boardGet a.Board knightPiece &&& shl attackPos ≠ 0
        else false
      else false)
  let kingPiece := if attackerColor = 1 then BlackKing else WhiteKing
  let queenPiece := if attackerColor = 1 then BlackQueen else WhiteQueen
  let rookPiece := if attackerColor = 1 then BlackRook else WhiteRook
  let bishopPiece := if attackerColor = 1 then BlackBishop else WhiteBishop
  let kingHit : Bool :=
    ([-9, -8, -7, -1, 1, 7, 8, 9] : List Int).any (fun offset =>
      let attackPos := square + offset
      if 0 ≤ attackPos ∧ attackPos < 64 then
        let rankDiff := iabs (idiv attackPos 8 - idiv square 8)
        let fileDiff := iabs (imod attackPos 8 - imod square 8)
        if rankDiff ≤ 1 ∧ fileDiff ≤ 1 then
          boardGet a.Board kingPiece &&& shl attackPos ≠ 0
        else false
      else false)
  let rookHit : Bool :=
    ([-8, -1, 1, 8] : List Int).any (fun dir =>
      slideRookAux a rookPiece queenPiece dir 7 square)
  let bishopHit : Bool :=
    ([-9, -7, 7, 9] : List Int).any (fun dir =>
      slideBishopAux a bishopPiece queenPiece dir 7 square)
  pawnHit || knightHit || kingHit || rookHit || bishopHit

/-- Function `IsCheck` from `engine1/engine.go`: locate the side-to-move
king and consult `isSquareAttacked` with the opponent as the attacker (the Go
code temporarily flips the stored turn; the model passes the flipped copy). -/
def IsCheck (a : ChessArbiter) : Bool :=
  let currentPlayerColor := a.TurnOfPlayer
  let kingPiece := if currentPlayerColor = 1 then BlackKing else WhiteKing
  let kingBitboard := boardGet a.Board kingPiece
  if kingBitboard = 0 then false
  else
    let kingPos := findSetBit kingBitboard
    let opponentColor := 1 - currentPlayerColor
    isSquareAttacked { a with TurnOfPlayer := opponentColor } kingPos opponentColor

/-- Function `isValidKingMove` from `engine1/engine.go`.  The regular-move
branch probes a buffer copy with the king relocated and the buffer's turn set
to the opponent before calling `IsCheck`; the castling branches test `IsCheck`
on the unmodified position first and then probe transit/destination buffers
the same way. -/
def isValidKingMove (a : ChessArbiter) (m : Move) : Bool :=
  let fromPos := findSetBit m.fromB
  let toPos := findSetBit m.toB
  let fromRank := idiv fromPos 8
  let fromFile := imod fromPos 8
  let toRank := idiv toPos 8
  let toFile := imod toPos 8
  let rankDiff := iabs (toRank - fromRank)
  let fileDiff := iabs (toFile - fromFile)
  let kingPc := getPieceAtPosition a fromPos
  if rankDiff ≤ 1 ∧ fileDiff ≤ 1 then
    let B1 := boardSet a.Board kingPc.1 (boardGet a.Board kingPc.1 &&& compl64 m.fromB)
    let B2 := boardSet B1 kingPc.1 (boardGet B1 kingPc.1 ||| m.toB)
    let bufferArbiter := { a with Board := B2, TurnOfPlayer := 1 - kingPc.2 }
    if IsCheck bufferArbiter then false else true
  else
    let turnOfPlayer := a.TurnOfPlayer
    if rankDiff = 0 ∧ fileDiff = 2 then
      if turnOfPlayer = 0 ∧ fromRank = 0 ∧ fromFile = 4 then
        if IsCheck a then false
        else if toFile = 6 then
          if iand a.WhiteCastle 1 = 0 then false
          else if (getPieceAtPosition a 5).1 ≠ -1 then false
          else if (getPieceAtPosition a 6).1 ≠ -1 then false
          else
            let Bf1 := boardSet a.Board WhiteKing
              (boardGet a.Board WhiteKing &&& compl64 m.fromB)
            let Bf2 := boardSet Bf1 WhiteKing (boardGet Bf1 WhiteKing ||| (1 <<< 5))
            if IsCheck { a with Board := Bf2, TurnOfPlayer := 1 } then false
            else
              let Bg1 := boardSet a.Board WhiteKing
                (boardGet a.Board WhiteKing &&& compl64 m.fromB)
              let Bg2 := boardSet Bg1 WhiteKing (boardGet Bg1 WhiteKing ||| (1 <<< 6))
              if IsCheck { a with Board := Bg2, TurnOfPlayer := 1 } then false
              else if (getPieceAtPosition a 7).1 ≠ WhiteRook ∨
                      (getPieceAtPosition a 7).2 ≠ 0 then false
              else true
        else if toFile = 2 then
          if iand a.WhiteCastle 2 = 0 then false
          else if (getPieceAtPosition a 1).1 ≠ -1 then false
          else if (getPieceAtPosition a 2).1 ≠ -1 then false
          else if (getPieceAtPosition a 3).1 ≠ -1 then false
          else
            let Bd1 := boardSet a.Board WhiteKing
              (boardGet a.Board WhiteKing &&& compl64 m.fromB)
            let Bd2 := boardSet Bd1 WhiteKing (boardGet Bd1 WhiteKing ||| (1 <<< 3))
            if IsCheck { a with Board := Bd2, TurnOfPlayer := 1 } then false
            else
              let Bc1 := boardSet a.Board WhiteKing
                (boardGet a.Board WhiteKing &&& compl64 m.fromB)
              let Bc2 := boardSet Bc1 WhiteKing (boardGet Bc1 WhiteKing ||| (1 <<< 2))
              if IsCheck { a with Board := Bc2, TurnOfPlayer := 1 } then false
              else if (getPieceAtPosition a 0).1 ≠ WhiteRook ∨
                      (getPieceAtPosition a 0).2 ≠ 0 then false
              else true
        else false
      else if turnOfPlayer = 1 ∧ fromRank = 7 ∧ fromFile = 4 then
        if IsCheck a then false
        else if toFile = 6 then
          if iand a.BlackCastle 1 = 0 then false
          else if (getPieceAtPosition a 61).1 ≠ -1 then false
          else if (getPieceAtPosition a 62).1 ≠ -1 then false
          else
            let Bf1 := boardSet a.Board BlackKing
              (boardGet a.Board BlackKing &&& compl64 m.fromB)
            let Bf2 := boardSet Bf1 BlackKing (boardGet Bf1 BlackKing ||| (1 <<< 61))
            if IsCheck { a with Board := Bf2, TurnOfPlayer := 0 } then false
            else
              let Bg1 := boardSet a.Board BlackKing
                (boardGet a.Board BlackKing &&& compl64 m.fromB)
              let Bg2 := boardSet Bg1 BlackKing (boardGet Bg1 BlackKing ||| (1 <<< 62))
              if IsCheck { a with Board := Bg2, TurnOfPlayer := 0 } then false
              else if (getPieceAtPosition a 63).1 ≠ BlackRook ∨
                      (getPieceAtPosition a 63).2 ≠ 1 then false
              else true
        else if toFile = 2 then
          if iand a.BlackCastle 2 = 0 then false
          else if (getPieceAtPosition a 57).1 ≠ -1 then false
          else if (getPieceAtPosition a 58).1 ≠ -1 then false
          else if (getPieceAtPosition a 59).1 ≠ -1 then false
          else
            let Bd1 := boardSet a.Board BlackKing
              (boardGet a.Board BlackKing &&& compl64 m.fromB)
            let Bd2 := boardSet Bd1 BlackKing (boardGet Bd1 BlackKing ||| (1 <<< 59))
            if IsCheck { a with Board := Bd2, TurnOfPlayer := 0 } then false
            else
              let Bc1 := boardSet a.Board BlackKing
                (boardGet a.Board BlackKing &&& compl64 m.fromB)
              let Bc2 := boardSet Bc1 BlackKing (boardGet Bc1 BlackKing ||| (1 <<< 58))
              if IsCheck { a with Board := Bc2, TurnOfPlayer := 0 } then false
              else if (getPieceAtPosition a 56).1 ≠ BlackRook ∨
                      (getPieceAtPosition a 56).2 ≠ 1 then false
              else true
        else false
      else false
    else false

/-- Function `IsValidMove` from `engine1/engine.go` (textually identical to
the arbiter's, but dispatching king moves to this package's
`isValidKingMove`). -/
def IsValidMove (a : ChessArbiter) (m : Move) : Bool :=
  let turnOfPlayer := a.TurnOfPlayer
  let fromBit := findSetBit m.fromB
  let toBit := findSetBit m.toB
  if countSetBits m.fromB ≠ 1 ∨ countSetBits m.toB ≠ 1 then false
  else
    let fromPc := getPieceAtPosition a fromBit
    if fromPc.1 = -1 ∨ fromPc.2 ≠ turnOfPlayer then false
    else
      let toPc := getPieceAtPosition a toBit
      if toPc.1 ≠ -1 ∧ toPc.2 = turnOfPlayer then false
      else
        if fromPc.1 = WhitePawn ∨ fromPc.1 = BlackPawn then arbiter.isValidPawnMove a m
        else if fromPc.1 = WhiteKing ∨ fromPc.1 = BlackKing then isValidKingMove a m
        else if fromPc.1 = WhiteBishop ∨ fromPc.1 = BlackBishop then arbiter.isValidBishopMove a m
        else if fromPc.1 = WhiteRook ∨ fromPc.1 = BlackRook then arbiter.isValidRookMove a m
        else if fromPc.1 = WhiteQueen ∨ fromPc.1 = BlackQueen then
          arbiter.isValidBishopMove a m || arbiter.isValidRookMove a m
        else if fromPc.1 = WhiteKnight ∨ fromPc.1 = BlackKnight then arbiter.isValidKnightMove a m
        else false

/-- Function `generateValidKingMoves` from `engine1/engine.go` (textually
identical to the arbiter's, filtering through this package's
`IsValidMove`). -/
def generateValidKingMoves (a : ChessArbiter) (playerColor : Int) : List Move :=
  let kingPiece := if playerColor = 1 then BlackKing else WhiteKing
  let kingBitboard := boardGet a.Board kingPiece
  if kingBitboard = 0 then []
  else
    let kingPos := findSetBit kingBitboard
    let kingBit := shl kingPos
    let rank := idiv kingPos 8
    let file := imod kingPos 8
    let adjacent := arbiter.kingDirections.filterMap (fun dir =>
      let newRank := rank + dir.1
      let newFile := file + dir.2
      if 0 ≤ newRank ∧ newRank < 8 ∧ 0 ≤ newFile ∧ newFile < 8 then
        let mv : Move := ⟨kingBit, shl (newRank * 8 + newFile), 0⟩
        if IsValidMove a mv then some mv else none
      else none)
    let whiteCastles :=
      if playerColor = 0 ∧ kingPos = 4 then
        (if iand a.WhiteCastle 1 ≠ 0 then
          let mv : Move := ⟨kingBit, 1 <<< 6, 0⟩
          if IsValidMove a mv then [mv] else []
        else []) ++
        (if iand a.WhiteCastle 2 ≠ 0 then
          let mv : Move := ⟨kingBit, 1 <<< 2, 0⟩
          if IsValidMove a mv then [mv] else []
        else [])
      else []
    let blackCastles :=
      if playerColor = 1 ∧ kingPos = 60 then
        (if iand a.BlackCastle 1 ≠ 0 then
          let mv : Move := ⟨kingBit, 1 <<< 62, 0⟩
          if IsValidMove a mv then [mv] else []
        else []) ++
        (if iand a.BlackCastle 2 ≠ 0 then
          let mv : Move := ⟨kingBit, 1 <<< 58, 0⟩
          if IsValidMove a mv then [mv] else []
        else [])
      else []
    adjacent ++ whiteCastles ++ blackCastles

/-- Candidate moves for one queen, from `generateValidQueenMoves` in
`engine1/engine.go`. -/
def queenMovesAt (a : ChessArbiter) (queenPos : Int) : List Move :=
  let queenBit := shl queenPos
  let rank := idiv queenPos 8
  let file := imod queenPos 8
  ((intRange 0 8).filterMap (fun newFile =>
    if newFile = file then none
    else
      let mv : Move := ⟨queenBit, shl (rank * 8 + newFile), 0⟩
      if IsValidMove a mv then some mv else none)) ++
  ((intRange 0 8).filterMap (fun newRank =>
    if newRank = rank then none
    else
      let mv : Move := ⟨queenBit, shl (newRank * 8 + file), 0⟩
      if IsValidMove a mv then some mv else none)) ++
  ((intRange (-7) 8).filterMap (fun offset =>
    if offset = 0 then none
    else
      let newRank := rank + offset
      let newFile := file + offset
      if 0 ≤ newRank ∧ newRank < 8 ∧ 0 ≤ newFile ∧ newFile < 8 then
        let mv : Move := ⟨queenBit, shl (newRank * 8 + newFile), 0⟩
        if IsValidMove a mv then some mv else none
      else none)) ++
  ((intRange (-7) 8).filterMap (fun offset =>
    if offset = 0 then none
    else
      let newRank := rank + offset
      let newFile := file - offset
      if 0 ≤ newRank ∧ newRank < 8 ∧ 0 ≤ newFile ∧ newFile < 8 then
        let mv : Move := ⟨queenBit, shl (newRank * 8 + newFile), 0⟩
        if IsValidMove a mv then some mv else none
      else none))

/-- Function `generateValidQueenMoves` from `engine1/engine.go`. -/
def generateValidQueenMoves (a : ChessArbiter) (playerColor : Int) : List Move :=
  let queenPiece := if playerColor = 1 then BlackQueen else WhiteQueen
  arbiter.pieceLoop (queenMovesAt a) 64 (boardGet a.Board queenPiece)

/-- Candidate moves for one rook, from `generateValidRookMoves` in
`engine1/engine.go`. -/
def rookMovesAt (a : ChessArbiter) (rookPos : Int) : List Move :=
  let rookBit := shl rookPos
  let rank := idiv rookPos 8
  let file := imod rookPos 8
  ((intRange 0 8).filterMap (fun newFile =>
    if newFile = file then none
    else
      let mv : Move := ⟨rookBit, shl (rank * 8 + newFile), 0⟩
      if IsValidMove a mv then some mv else none)) ++
  ((intRange 0 8).filterMap (fun newRank =>
    if newRank = rank then none
    else
      let mv : Move := ⟨rookBit, shl (newRank * 8 + file), 0⟩
      if IsValidMove a mv then some mv else none))

/-- Function `generateValidRookMoves` from `engine1/engine.go`. -/
def generateValidRookMoves (a : ChessArbiter) (playerColor : Int) : List Move :=
  let rookPiece := if playerColor = 1 then BlackRook else WhiteRook
  arbiter.pieceLoop (rookMovesAt a) 64 (boardGet a.Board rookPiece)

/-- Candidate moves for one bishop, from `generateValidBishopMoves` in
`engine1/engine.go`. -/
def bishopMovesAt (a : ChessArbiter) (bishopPos : Int) : List Move :=
  let bishopBit := shl bishopPos
  let rank := idiv bishopPos 8
  let file := imod bishopPos 8
  ((intRange (-7) 8).filterMap (fun offset =>
    if offset = 0 then none
    else
      let newRank := rank + offset
      let newFile := file + offset
      if 0 ≤ newRank ∧ newRank < 8 ∧ 0 ≤ newFile ∧ newFile < 8 then
        let mv : Move := ⟨bishopBit, shl (newRank * 8 + newFile), 0⟩
        if IsValidMove a mv then some mv else none
      else none)) ++
  ((intRange (-7) 8).filterMap (fun offset =>
    if offset = 0 then none
    else
      let newRank := rank + offset
      let newFile := file - offset
      if 0 ≤ newRank ∧ newRank < 8 ∧ 0 ≤ newFile ∧ newFile < 8 then
        let mv : Move := ⟨bishopBit, shl (newRank * 8 + newFile), 0⟩
        if IsValidMove a mv then some mv else none
      else none))

/-- Function `generateValidBishopMoves` from `engine1/engine.go`. -/
def generateValidBishopMoves (a : ChessArbiter) (playerColor : Int) : List Move :=
  let bishopPiece := if playerColor = 1 then BlackBishop else WhiteBishop
  arbiter.pieceLoop (bishopMovesAt a) 64 (boardGet a.Board bishopPiece)

/-- Candidate moves for one knight, from `generateValidKnightMoves` in
`engine1/engine.go`. -/
def knightMovesAt (a : ChessArbiter) (knightPos : Int) : List Move :=
  let knightBit := shl knightPos
  let rank := idiv knightPos 8
  let file := imod knightPos 8
  arbiter.knightOffsetPairs.filterMap (fun offset =>
    let newRank := rank + offset.1
    let newFile := file + offset.2
    if 0 ≤ newRank ∧ newRank < 8 ∧ 0 ≤ newFile ∧ newFile < 8 then
      let mv : Move := ⟨knightBit, shl (newRank * 8 + newFile), 0⟩
      if IsValidMove a mv then some mv else none
    else none)

/-- Function `generateValidKnightMoves` from `engine1/engine.go`. -/
def generateValidKnightMoves (a : ChessArbiter) (playerColor : Int) : List Move :=
  let knightPiece := if playerColor = 1 then BlackKnight else WhiteKnight
  arbiter.pieceLoop (knightMovesAt a) 64 (boardGet a.Board knightPiece)

/-- Candidate moves for one pawn, from `generateValidPawnMoves` in
`engine1/engine.go`. -/
def pawnMovesAt (a : ChessArbiter) (playerColor : Int) (pawnPos : Int) : List Move :=
  let pawnBit := shl pawnPos
  let rank := idiv pawnPos 8
  let file := imod pawnPos 8
  let rankDir : Int := if playerColor = 1 then -1 else 1
  let promotionRank : Int := if playerColor = 1 then 0 else 7
  let startingRank : Int := if playerColor = 1 then 6 else 1
  let promotionPieces : List Int :=
    if playerColor = 0 then [WhiteQueen, WhiteRook, WhiteBishop, WhiteKnight]
    else [BlackQueen, BlackRook, BlackBishop, BlackKnight]
  let forward :=
    let newRank := rank + rankDir
    if 0 ≤ newRank ∧ newRank < 8 then
      let targetBit := shl (newRank * 8 + file)
      if newRank = promotionRank then
        promotionPieces.filterMap (fun promotionPiece =>
          let mv : Move := ⟨pawnBit, targetBit, promotionPiece.toNat⟩
          if IsValidMove a mv then some mv else none)
      else
        let mv : Move := ⟨pawnBit, targetBit, 0⟩
        if IsValidMove a mv then [mv] else []
    else []
  let double :=
    if rank = startingRank then
      let newRank := rank + 2 * rankDir
      if 0 ≤ newRank ∧ newRank < 8 then
        let mv : Move := ⟨pawnBit, shl (newRank * 8 + file), 0⟩
        if IsValidMove a mv then [mv] else []
      else []
    else []
  let captures := ([-1, 1] : List Int).flatMap (fun fileDiff =>
    let newFile := file + fileDiff
    let newRank := rank + rankDir
    if 0 ≤ newRank ∧ newRank < 8 ∧ 0 ≤ newFile ∧ newFile < 8 then
      let targetBit := shl (newRank * 8 + newFile)
      if newRank = promotionRank then
        promotionPieces.filterMap (fun promotionPiece =>
          let mv : Move := ⟨pawnBit, targetBit, promotionPiece.toNat⟩
          if IsValidMove a mv then some mv else none)
      else
        let mv : Move := ⟨pawnBit, targetBit, 0⟩
        if IsValidMove a mv then [mv] else []
    else [])
  let enPassant :=
    if playerColor = 0 then
      if a.EnPassantBlack ≠ 0 ∧ rank = 4 then
        let epSquare := findSetBit a.EnPassantBlack
        let epFile := imod epSquare 8
        if iabs (file - epFile) = 1 then
          if boardGet a.Board BlackPawn &&& shl (epSquare - 8) ≠ 0 then
            let mv : Move := ⟨pawnBit, a.EnPassantBlack, 0⟩
            if IsValidMove a mv then [mv] else []
          else []
        else []
      else []
    else if playerColor = 1 then
      if a.EnPassantWhite ≠ 0 ∧ rank = 3 then
        let epSquare := findSetBit a.EnPassantWhite
        let epFile := imod epSquare 8
        if iabs (file - epFile) = 1 then
          if boardGet a.Board WhitePawn &&& shl (epSquare + 8) ≠ 0 then
            let mv : Move := ⟨pawnBit, a.EnPassantWhite, 0⟩
            if IsValidMove a mv then [mv] else []
          else []
        else []
      else []
    else []
  forward ++ double ++ captures ++ enPassant

/-- Function `generateValidPawnMoves` from `engine1/engine.go`. -/
def generateValidPawnMoves (a : ChessArbiter) (playerColor : Int) : List Move :=
  let pawnPiece := if playerColor = 1 then BlackPawn else WhitePawn
  arbiter.pieceLoop (pawnMovesAt a playerColor) 64 (boardGet a.Board pawnPiece)

/-- Function `GenerateValidMoves` from `engine1/engine.go`. -/
def GenerateValidMoves (a : ChessArbiter) : List Move :=
  let playerColor := a.TurnOfPlayer
  generateValidKingMoves a playerColor ++
  generateValidQueenMoves a playerColor ++
  generateValidRookMoves a playerColor ++
  generateValidBishopMoves a playerColor ++
  generateValidKnightMoves a playerColor ++
  generateValidPawnMoves a playerColor

end engine1

namespace Chess

/-- Go bitwise OR on `int` operands (used with the castling flag masks). -/
def ior (a b : Int) : Int := Int.lor a b

/-- Go byte subtraction `c - d` on string bytes (wraps modulo 256; all inputs
exercised here are ASCII, matching Go's byte indexing on ASCII strings). -/
def byteSub (c d : Char) : Int := (((c.toNat + 256) - d.toNat) % 256 : Nat)

end Chess

namespace arbiter

open Chess

/-- Constant `DefaultFEN` from `arbiter/chess.go`. -/
def DefaultFEN : String := "rnbqkbnr/pppppppp/8/8/8/8/PPPPPPPP/RNBQKBNR w KQkq - 0 1"

/-- Outcome of `CreateGameArbiter`: the Go function returns
`(nil, error)` (modelled `err`), or `(arbiter, nil)` (modelled `ok`), or the
Go runtime panics — a negative shift while parsing the placement field, or an
index out of range while reading a short en-passant field (modelled
`panicked`). -/
inductive FenResult where
  | err : FenResult
  | panicked : FenResult
  | ok : ChessArbiter → FenResult

/-- True iff the decode ended in the recoverable error return. -/
def FenResult.isErr : FenResult → Bool
  | .err => true
  | _ => false

/-- True iff the decode ended in a runtime panic. -/
def FenResult.isPanic : FenResult → Bool
  | .panicked => true
  | _ => false

/-- Projection used to state concrete facts about a successful decode. -/
def FenResult.board? : FenResult → Option ChessArbiter
  | .ok a => some a
  | _ => none

/-- The piece letter cases of the placement `switch` in `CreateGameArbiter`
(unknown letters fall through and set no bit). -/
def fenPieceIndex (c : Char) : Option Int :=
  if c = 'K' then some WhiteKing
  else if c = 'Q' then some WhiteQueen
  else if c = 'R' then some WhiteRook
  else if c = 'B' then some WhiteBishop
  else if c = 'N' then some WhiteKnight
  else if c = 'P' then some WhitePawn
  else if c = 'k' then some BlackKing
  else if c = 'q' then some BlackQueen
  else if c = 'r' then some BlackRook
  else if c = 'b' then some BlackBishop
  else if c = 'n' then some BlackKnight
  else if c = 'p' then some BlackPawn
  else none

/-- State of the placement-parsing loop in `CreateGameArbiter`. -/
structure PlacementState where
  rank : Int
  file : Int
  Board : Fin 12 → Nat

/-- The placement-field loop of `CreateGameArbiter` (`for _, char := range
board`).  `none` models the Go panic `uint64(1) << squareIndex` with a
negative `squareIndex` (reachable when the field closes more than eight
ranks). -/
def parsePlacement : List Char → PlacementState → Option PlacementState
  | [], st => some st
  | c :: rest, st =>
    if c = '/' then
      parsePlacement rest { st with rank := st.rank - 1, file := 0 }
    else if c ∈ ['1', '2', '3', '4', '5', '6', '7', '8'] then
      parsePlacement rest { st with file := st.file + byteSub c '0' }
    else
      let squareIndex := st.rank * 8 + st.file
      if squareIndex < 0 then none
      else
        let bitMask := shl squareIndex
        let B :=
          match fenPieceIndex c with
          | some idx => boardSet st.Board idx (boardGet st.Board idx ||| bitMask)
          | none => st.Board
        parsePlacement rest { st with Board := B, file := st.file + 1 }

/-- Function `CreateGameArbiter` from `arbiter/chess.go`: substitute the
default FEN for the empty string, split on single spaces, fail (recoverably)
with fewer than four fields, then parse placement, active color, castling
availability, and the en-passant square. -/
def CreateGameArbiter (fen : String) : FenResult :=
  let fen := if fen = "" then DefaultFEN else fen
  let parts := fen.data.splitOn ' '
  if parts.length < 4 then .err
  else
    match parsePlacement (parts.getD 0 []) ⟨7, 0, fun _ => 0⟩ with
    | none => .panicked
    | some st =>
      let turnOfPlayer : Int := if parts.getD 1 [] = ['w'] then 0 else 1
      let p2 := parts.getD 2 []
      let wc1 : Int := if 'K' ∈ p2 then ior 0 1 else 0
      let wc2 : Int := if 'Q' ∈ p2 then ior wc1 2 else wc1
      let bc1 : Int := if 'k' ∈ p2 then ior 0 1 else 0
      let bc2 : Int := if 'q' ∈ p2 then ior bc1 2 else bc1
      let p3 := parts.getD 3 []
      if p3 = ['-'] then
        .ok { Board := st.Board, TurnOfPlayer := turnOfPlayer,
              EnPassantWhite := 0, EnPassantBlack := 0,
              WhiteCastle := wc2, BlackCastle := bc2 }
      else
        match p3 with
        | c0 :: c1 :: _ =>
          let file := byteSub c0 'a'
          let rank := byteSub c1 '1'
          let enPassantSquare := rank * 8 + file
          let enPassantBitboard := shl enPassantSquare
          if turnOfPlayer = 0 then
            .ok { Board := st.Board, TurnOfPlayer := turnOfPlayer,
                  EnPassantWhite := 0, EnPassantBlack := enPassantBitboard,
                  WhiteCastle := wc2, BlackCastle := bc2 }
          else
            .ok { Board := st.Board, TurnOfPlayer := turnOfPlayer,
                  EnPassantWhite := enPassantBitboard, EnPassantBlack := 0,
                  WhiteCastle := wc2, BlackCastle := bc2 }
        | _ => .panicked

/-- The piece-letter priority chain from the placement section of
`GameArbiterToFEN` (white king through black pawn, space when empty). -/
def fenPieceChar (B : Fin 12 → Nat) (squareIndex : Int) : Char :=
  let bitMask := shl squareIndex
  if boardGet B WhiteKing &&& bitMask ≠ 0 then 'K'
  else if boardGet B WhiteQueen &&& bitMask ≠ 0 then 'Q'
  else if boardGet B WhiteRook &&& bitMask ≠ 0 then 'R'
  else if boardGet B WhiteBishop &&& bitMask ≠ 0 then 'B'
  else if boardGet B WhiteKnight &&& bitMask ≠ 0 then 'N'
  else if boardGet B WhitePawn &&& bitMask ≠ 0 then 'P'
  else if boardGet B BlackKing &&& bitMask ≠ 0 then 'k'
  else if boardGet B BlackQueen &&& bitMask ≠ 0 then 'q'
  else if boardGet B BlackRook &&& bitMask ≠ 0 then 'r'
  else if boardGet B BlackBishop &&& bitMask ≠ 0 then 'b'
  else if boardGet B BlackKnight &&& bitMask ≠ 0 then 'n'
  else if boardGet B BlackPawn &&& bitMask ≠ 0 then 'p'
  else ' '

/-- One rank of the placement field of `GameArbiterToFEN`: the file loop with
its `emptySquares` run-length counter (`strconv.Itoa` on a count ≤ 8). -/
def encRankAux (B : Fin 12 → Nat) (rank : Int) :
    List Int → Nat → List Char
  | [], emptySquares =>
    if emptySquares > 0 then Nat.toDigits 10 emptySquares else []
  | file :: files, emptySquares =>
    let piece := fenPieceChar B (rank * 8 + file)
    if piece = ' ' then encRankAux B rank files (emptySquares + 1)
    else
      (if emptySquares > 0 then Nat.toDigits 10 emptySquares else []) ++
      piece :: encRankAux B rank files 0

/-- The rank loop (`for rank := 7; rank >= 0; rank--`) of the placement
section, with the `/` separators. -/
def placementAux (B : Fin 12 → Nat) : List Int → List Char
  | [] => []
  | r :: rs =>
    encRankAux B r (intRange 0 8) 0 ++ (if r > 0 then ['/'] else []) ++ placementAux B rs

/-- Function `GameArbiterToFEN` from `arbiter/chess.go` (the halfmove clock
and fullmove number are emitted as the constants `0` and `1`). -/
def GameArbiterToFEN (a : ChessArbiter) : String :=
  let placement := placementAux a.Board [7, 6, 5, 4, 3, 2, 1, 0]
  let color : List Char := if a.TurnOfPlayer = 0 then [' ', 'w', ' '] else [' ', 'b', ' ']
  let castlingRights : List Char :=
    (if iand a.WhiteCastle 1 ≠ 0 then ['K'] else []) ++
    (if iand a.WhiteCastle 2 ≠ 0 then ['Q'] else []) ++
    (if iand a.BlackCastle 1 ≠ 0 then ['k'] else []) ++
    (if iand a.BlackCastle 2 ≠ 0 then ['q'] else [])
  let castling := if castlingRights = [] then ['-'] else castlingRights
  let enPassantBitboard :=
    if a.TurnOfPlayer = 0 ∧ a.EnPassantBlack ≠ 0 then a.EnPassantBlack
    else if a.TurnOfPlayer = 1 ∧ a.EnPassantWhite ≠ 0 then a.EnPassantWhite
    else 0
  let ep : List Char :=
    if enPassantBitboard ≠ 0 then
      let enPassantSquare := findSetBit enPassantBitboard
      let file := imod enPassantSquare 8
      let rank := idiv enPassantSquare 8
      [Char.ofNat ('a'.toNat + file.toNat), Char.ofNat ('1'.toNat + rank.toNat)]
    else ['-']
  ⟨placement ++ color ++ castling ++ [' '] ++ ep ++ [' ', '0', ' ', '1']⟩

end arbiter

namespace arbiter

open Chess

/-- One full ply exactly as the Go match loop `PlayGame` executes it:
`DoMove(arbiter, move)` followed by the loop's own
`TurnOfPlayer = 1 - TurnOfPlayer` (the applier itself never touches the
turn). -/
def gameStep (a : ChessArbiter) (m : Move) : ChessArbiter :=
  let a2 := DoMove a m
  { a2 with TurnOfPlayer := 1 - a2.TurnOfPlayer }

/-- The decoded default FEN (the position `PlayGame` starts from), written
out as explicit bitboards. -/
def startPos : ChessArbiter :=
  { Board := fun i =>
      [16, 8, 129, 36, 66, 65280,
       1 <<< 60, 1 <<< 59, (1 <<< 56) + (1 <<< 63), (1 <<< 58) + (1 <<< 61),
       (1 <<< 57) + (1 <<< 62), 0xFF000000000000].getD i 0,
    TurnOfPlayer := 0, EnPassantWhite := 0, EnPassantBlack := 0,
    WhiteCastle := 3, BlackCastle := 3 }

/-- Positions reachable from the decoded default FEN by playing generated
moves the way `PlayGame` does (apply, then flip the turn). -/
inductive Reachable : ChessArbiter → Prop
  | start : Reachable startPos
  | step {a : ChessArbiter} {m : Move} : Reachable a →
      m ∈ GenerateValidMoves a → Reachable (gameStep a m)

end arbiter

namespace arbiter

open Chess

/-- Per-square effect of the placement parser on a character produced by
`fenPieceChar`: the square's bit is OR-ed into the bitboard named by the
character (no-op for a blank square).  Bridges `parsePlacement` and the
placement section of `GameArbiterToFEN`. -/
def fenSquareStep (B : Fin 12 → Nat) (acc : Fin 12 → Nat) (sq : Int) : Fin 12 → Nat :=
  match fenPieceIndex (fenPieceChar B sq) with
  | some idx => boardSet acc idx (boardGet acc idx ||| shl sq)
  | none => acc

/-- The squares of the board in the order the placement section of
`GameArbiterToFEN` visits them (rank 7 down to rank 0, file 0 to 7). -/
def fenSquareOrder : List Int :=
  (([7, 6, 5, 4, 3, 2, 1, 0] : List Int).map
    (fun r => (intRange 0 8).map (fun x => r * 8 + x))).flatten

/-- The castling-availability chunk of `GameArbiterToFEN` (section 3 of the
encoder), as a standalone function of the two castling words. -/
def castleChunk (wc bc : Int) : List Char :=
  let castlingRights : List Char :=
    (if iand wc 1 ≠ 0 then ['K'] else []) ++
    (if iand wc 2 ≠ 0 then ['Q'] else []) ++
    (if iand bc 1 ≠ 0 then ['k'] else []) ++
    (if iand bc 2 ≠ 0 then ['q'] else [])
  if castlingRights = [] then ['-'] else castlingRights

/-- The en-passant chunk of `GameArbiterToFEN` (section 4 of the encoder), as
a standalone function of the selected en-passant bitboard. -/
def epChunk (bb : Nat) : List Char :=
  if bb ≠ 0 then
    let enPassantSquare := findSetBit bb
    let file := imod enPassantSquare 8
    let rank := idiv enPassantSquare 8
    [Char.ofNat ('a'.toNat + file.toNat), Char.ofNat ('1'.toNat + rank.toNat)]
  else ['-']

end arbiter

namespace Fix

open Chess

/-- Move e2–e4 as a bitboard triple (squares are rank-major, a1 = 0). -/
def mvE2E4 : Move := ⟨1 <<< 12, 1 <<< 28, 0⟩

/-- Move d7–d5. -/
def mvD7D5 : Move := ⟨1 <<< 51, 1 <<< 35, 0⟩

/-- Move e4–e5. -/
def mvE4E5 : Move := ⟨1 <<< 28, 1 <<< 36, 0⟩

/-- Move f7–f5. -/
def mvF7F5 : Move := ⟨1 <<< 53, 1 <<< 37, 0⟩

/-- The en-passant capture e5–f6. -/
def mvE5F6 : Move := ⟨1 <<< 36, 1 <<< 45, 0⟩

/-- Move b8–c6 (knight). -/
def mvB8C6 : Move := ⟨1 <<< 57, 1 <<< 42, 0⟩

/-- Move a1–a2 (rook leaving its home square). -/
def mvA1A2 : Move := ⟨1 <<< 0, 1 <<< 8, 0⟩

/-- The white kingside castling move e1–g1. -/
def mvE1G1 : Move := ⟨1 <<< 4, 1 <<< 6, 0⟩

/-- Move e1–e2 (king). -/
def mvE1E2 : Move := ⟨1 <<< 4, 1 <<< 12, 0⟩

/-- The position after 1. e4 exactly as the match loop reaches it. -/
def afterE4 : ChessArbiter := arbiter.gameStep arbiter.startPos mvE2E4

/-- The position after 1. e4 d5. -/
def afterE4D5 : ChessArbiter := arbiter.gameStep afterE4 mvD7D5

/-- The position after 1. e4 d5 2. e5. -/
def afterE4D5E5 : ChessArbiter := arbiter.gameStep afterE4D5 mvE4E5

/-- The position after 1. e4 d5 2. e5 f5, in which e5xf6 en passant is the
move the specification requires to be offered. -/
def epTestPos : ChessArbiter := arbiter.gameStep afterE4D5E5 mvF7F5

/-- White Ke1 and Ra1 with both castling flags, black Ke8; white to move. -/
def rookHomePos : ChessArbiter :=
  { Board := fun i => [1 <<< 4, 0, 1 <<< 0, 0, 0, 0, 1 <<< 60, 0, 0, 0, 0, 0].getD i 0,
    TurnOfPlayer := 0, EnPassantWhite := 0, EnPassantBlack := 0,
    WhiteCastle := 3, BlackCastle := 0 }

/-- White Ke1 and Rh1 with castling rights, black Re8 giving check and Ka8;
white to move. -/
def checkedCastlePos : ChessArbiter :=
  { Board := fun i => [1 <<< 4, 0, 1 <<< 7, 0, 0, 0, 1 <<< 56, 0, 1 <<< 60, 0, 0, 0].getD i 0,
    TurnOfPlayer := 0, EnPassantWhite := 0, EnPassantBlack := 0,
    WhiteCastle := 3, BlackCastle := 0 }

/-- White Ke1 and Rh1 with the kingside flag, black Rf8 attacking the transit
square f1, black Ka8; white to move. -/
def transitAttackPos : ChessArbiter :=
  { Board := fun i => [1 <<< 4, 0, 1 <<< 7, 0, 0, 0, 1 <<< 56, 0, 1 <<< 61, 0, 0, 0].getD i 0,
    TurnOfPlayer := 0, EnPassantWhite := 0, EnPassantBlack := 0,
    WhiteCastle := 1, BlackCastle := 0 }

/-- The castling test position r3k2r/8/8/8/8/8/8/R3K2R with every right set
and white to move. -/
def fullCastlePos : ChessArbiter :=
  { Board := fun i =>
      [1 <<< 4, 0, (1 <<< 0) + (1 <<< 7), 0, 0, 0,
       1 <<< 60, 0, (1 <<< 56) + (1 <<< 63), 0, 0, 0].getD i 0,
    TurnOfPlayer := 0, EnPassantWhite := 0, EnPassantBlack := 0,
    WhiteCastle := 3, BlackCastle := 3 }

/-- White Ke1 alone against black Ra2 and Kh8: every square of rank 2 is
attacked by the rook, so e1–e2 moves the king into check. -/
def intoCheckPos : ChessArbiter :=
  { Board := fun i => [1 <<< 4, 0, 0, 0, 0, 0, 1 <<< 63, 0, 1 <<< 8, 0, 0, 0].getD i 0,
    TurnOfPlayer := 0, EnPassantWhite := 0, EnPassantBlack := 0,
    WhiteCastle := 0, BlackCastle := 0 }

end Fix

namespace Chess

/- ### Foundational lemmas about the bit-level helpers -/

theorem shl_eq_pow {i : Int} (h0 : 0 ≤ i) (h1 : i < 64) :
    shl i = 2 ^ i.toNat := by
  simp only [shl, h0, h1, and_self, if_true, Nat.shiftLeft_eq, one_mul]

theorem shl_lt {i : Int} : shl i < 2 ^ 64 := by
  unfold shl
  split
  · next h =>
    rw [Nat.shiftLeft_eq, one_mul]
    exact Nat.pow_lt_pow_right (by norm_num) (by omega)
  · exact Nat.pos_pow_of_pos 64 (by norm_num)

theorem and_shl_ne_zero {b : Nat} {i : Int} (h0 : 0 ≤ i) (h1 : i < 64) :
    (b &&& shl i ≠ 0) ↔ b.testBit i.toNat := by
  rw [shl_eq_pow h0 h1, Nat.and_two_pow]
  rcases h : b.testBit i.toNat <;> simp [h]

theorem and_one_shl_ne_zero {b : Nat} (i : Nat) :
    ((b &&& (1 <<< i) != 0) = true) ↔ b.testBit i := by
  rw [Nat.shiftLeft_eq, one_mul, Nat.and_two_pow]
  rcases h : b.testBit i <;> simp [h]

theorem testBit_compl64 {x : Nat} {i : Nat} (hi : i < 64) :
    (compl64 x).testBit i = !x.testBit i := by
  rw [compl64, Nat.testBit_xor, Nat.testBit_two_pow_sub_one]
  simp [hi, Bool.xor_true]

theorem testBit_and_compl64 {b x : Nat} {i : Nat} (hi : i < 64) :
    (b &&& compl64 x).testBit i = (b.testBit i && !x.testBit i) := by
  rw [Nat.testBit_land, testBit_compl64 hi]

theorem testBit_ge_64 {b : Nat} (hb : b < 2 ^ 64) {i : Nat} (hi : 64 ≤ i) :
    b.testBit i = false :=
  Nat.testBit_eq_false_of_lt (lt_of_lt_of_le hb (Nat.pow_le_pow_right (by norm_num) hi))

/- ### Generic list-search lemmas -/

theorem find?_eq_some_of_unique {α : Type} {p : α → Bool} {l : List α} {x : α}
    (hx : x ∈ l) (hp : p x = true) (hu : ∀ y ∈ l, y ≠ x → p y = false) :
    l.find? p = some x := by
  induction l with
  | nil => cases hx
  | cons a l ih =>
    rcases h : p a with _ | _
    · have hax : a ≠ x := by rintro rfl; rw [hp] at h; cases h
      have hx2 : x ∈ l := by
        rcases List.mem_cons.mp hx with h0 | h0
        · exact absurd h0.symm hax
        · exact h0
      rw [List.find?_cons_of_neg _ (by simp [h]),
        ih hx2 (fun y hy hyx => hu y (List.mem_cons_of_mem _ hy) hyx)]
    · have hax : a = x := by
        by_contra hne
        rw [hu a (List.mem_cons_self a l) hne] at h; cases h
      rw [List.find?_cons_of_pos _ h, hax]

theorem find?_range_eq_some_of_least {p : Nat → Bool} {n i : Nat}
    (hin : i < n) (hp : p i = true) (hleast : ∀ j < i, p j = false) :
    (List.range n).find? p = some i := by
  induction n with
  | zero => omega
  | succ n ih =>
    rw [List.range_succ, List.find?_append]
    rcases Nat.lt_or_ge i n with h | h
    · rw [ih h]; rfl
    · have : i = n := by omega
      subst this
      rw [List.find?_eq_none.2 (fun x hx => by
        simp only [List.mem_range] at hx
        simp [hleast x hx])]
      simp [List.find?, hp]

theorem mem_intRange {lo hi x : Int} : x ∈ intRange lo hi ↔ lo ≤ x ∧ x < hi := by
  simp only [intRange, List.mem_map, List.mem_range]
  constructor
  · rintro ⟨n, hn, rfl⟩
    constructor
    · omega
    · omega
  · intro h
    refine ⟨(x - lo).toNat, ?_, ?_⟩
    · omega
    · omega

/- ### findSetBit -/

theorem findSetBit_zero : findSetBit 0 = -1 := by decide

theorem findSetBit_two_pow {i : Nat} (h : i < 64) : findSetBit (2 ^ i) = i := by
  unfold findSetBit
  rw [find?_range_eq_some_of_least h
    (by rw [and_one_shl_ne_zero]; simp)
    (fun j hj => by
      rcases hb : ((2 ^ i &&& (1 <<< j)) != 0) with _ | _
      · rfl
      · rw [and_one_shl_ne_zero] at hb
        rw [Nat.testBit_two_pow] at hb
        simp at hb; omega)]

theorem exists_testBit_of_ne_zero {b : Nat} (hb : b ≠ 0) : ∃ i, b.testBit i := by
  by_contra h
  push_neg at h
  exact hb (Nat.eq_of_testBit_eq (fun i => by simp [h i, Nat.zero_testBit]))

theorem findSetBit_spec {b : Nat} (hb : b ≠ 0) (hlt : b < 2 ^ 64) :
    ∃ i : Nat, findSetBit b = (i : Int) ∧ i < 64 ∧ b.testBit i ∧
      ∀ j < i, b.testBit j = false := by
  have hex := exists_testBit_of_ne_zero hb
  classical
  let i := Nat.find hex
  have hi : b.testBit i := Nat.find_spec hex
  have hleast : ∀ j < i, b.testBit j = false := fun j hj => by
    have := Nat.find_min hex hj
    simpa using this
  have hi64 : i < 64 := by
    by_contra h
    rw [testBit_ge_64 hlt (by omega)] at hi; cases hi
  refine ⟨i, ?_, hi64, hi, hleast⟩
  unfold findSetBit
  rw [find?_range_eq_some_of_least hi64
    (by rw [and_one_shl_ne_zero]; exact hi)
    (fun j hj => by
      rcases hx : ((b &&& (1 <<< j)) != 0) with _ | _
      · rfl
      · rw [and_one_shl_ne_zero] at hx
        rw [hleast j hj] at hx; cases hx)]

theorem findSetBit_nonneg_iff {b : Nat} (hlt : b < 2 ^ 64) :
    0 ≤ findSetBit b ↔ b ≠ 0 := by
  constructor
  · intro h hb0
    subst hb0
    rw [findSetBit_zero] at h; omega
  · intro hb
    obtain ⟨i, hi, _, _, _⟩ := findSetBit_spec hb hlt
    omega

/- ### countSetBits -/

theorem countSetBitsAux_eq_zero {fuel b : Nat} :
    countSetBitsAux fuel b = 0 ↔ (fuel = 0 ∨ b = 0) := by
  cases fuel with
  | zero => simp [countSetBitsAux]
  | succ fuel =>
    rcases eq_or_ne b 0 with rfl | hb
    · simp [countSetBitsAux]
    · simp [countSetBitsAux, hb]

theorem countSetBits_eq_one_iff_and_pred {b : Nat} :
    countSetBits b = 1 ↔ b ≠ 0 ∧ b &&& (b - 1) = 0 := by
  unfold countSetBits
  rcases eq_or_ne b 0 with rfl | hb
  · simp [countSetBitsAux]
  · have step : countSetBitsAux 64 b = countSetBitsAux 63 (b &&& (b - 1)) + 1 := by
      show countSetBitsAux (63 + 1) b = _
      simp only [countSetBitsAux, hb, if_false]
    rw [step]
    constructor
    · intro h
      have h0 : countSetBitsAux 63 (b &&& (b - 1)) = 0 := by omega
      rcases countSetBitsAux_eq_zero.1 h0 with h63 | hz
      · exact absurd h63 (by norm_num)
      · exact ⟨hb, hz⟩
    · rintro ⟨_, h⟩
      rw [h]
      simp [countSetBitsAux]

theorem and_pred_eq_zero_of_two_pow {i : Nat} : (2 ^ i) &&& (2 ^ i - 1) = 0 := by
  apply Nat.eq_of_testBit_eq
  intro j
  rw [Nat.testBit_land, Nat.testBit_two_pow, Nat.testBit_two_pow_sub_one,
    Nat.zero_testBit]
  rcases Nat.lt_trichotomy i j with h | h | h <;> simp [h] <;> omega

theorem and_pred_eq_zero_iff_two_pow {b : Nat} (hb : b ≠ 0) :
    b &&& (b - 1) = 0 ↔ ∃ i, b = 2 ^ i := by
  constructor
  · intro h
    induction b using Nat.strong_induction_on with
    | _ b ih =>
      rcases Nat.even_or_odd b with ⟨c, hc⟩ | ⟨c, hc⟩
      · have hc0 : c ≠ 0 := by omega
        have hcb : c < b := by omega
        have hcc : c &&& (c - 1) = 0 := by
          apply Nat.eq_of_testBit_eq
          intro j
          have := congrArg (fun x => Nat.testBit x (j + 1)) h
          simp only [Nat.testBit_land, Nat.zero_testBit] at this ⊢
          have e1 : b.testBit (j + 1) = c.testBit j := by
            rw [Nat.testBit_succ]
            congr 2
            omega
          have e2 : (b - 1).testBit (j + 1) = (c - 1).testBit j := by
            rw [Nat.testBit_succ]
            congr 2
            omega
          rw [e1, e2] at this
          exact this
        obtain ⟨i, hi⟩ := ih c hcb hc0 hcc
        exact ⟨i + 1, by rw [pow_succ]; omega⟩
      · rcases eq_or_ne c 0 with rfl | hc0
        · exact ⟨0, by rw [pow_zero]; omega⟩
        · exfalso
          have h1 : b.testBit 0 = true := by
            simp only [Nat.testBit_zero, decide_eq_true_eq]
            omega
          have hj := exists_testBit_of_ne_zero hc0
          obtain ⟨j, hj⟩ := hj
          have h2 : b.testBit (j + 1) = true := by
            rw [Nat.testBit_succ]
            have hbc : b / 2 = c := by omega
            rw [hbc]; exact hj
          have h3 : (b - 1).testBit (j + 1) = true := by
            rw [Nat.testBit_succ]
            have hbc : (b - 1) / 2 = c := by omega
            rw [hbc]; exact hj
          have := congrArg (fun x => Nat.testBit x (j + 1)) h
          simp only [Nat.testBit_land, Nat.zero_testBit, h2, h3] at this
          cases this
  · rintro ⟨i, rfl⟩
    exact and_pred_eq_zero_of_two_pow

theorem countSetBits_eq_one_iff {b : Nat} :
    countSetBits b = 1 ↔ ∃ i, b = 2 ^ i := by
  rw [countSetBits_eq_one_iff_and_pred]
  constructor
  · rintro ⟨hb, h⟩
    exact (and_pred_eq_zero_iff_two_pow hb).1 h
  · rintro ⟨i, rfl⟩
    exact ⟨Nat.pos_iff_ne_zero.1 (Nat.pos_pow_of_pos i (by norm_num)),
      and_pred_eq_zero_of_two_pow⟩

theorem countSetBits_two_pow {i : Nat} : countSetBits (2 ^ i) = 1 :=
  countSetBits_eq_one_iff.2 ⟨i, rfl⟩

/- ### getPieceAtPosition -/

theorem getPiece_cases (a : ChessArbiter) (s : Int) :
    getPieceAtPosition a s = (-1, -1) ∨
    ∃ p : Fin 12, getPieceAtPosition a s = ((p : Int), if (p : Nat) ≤ 5 then 0 else 1) ∧
      a.Board p &&& shl s ≠ 0 := by
  simp only [getPieceAtPosition]
  rcases h : (List.finRange 12).find? (fun p => a.Board p &&& shl s != 0) with _ | p
  · left
    rfl
  · right
    refine ⟨p, rfl, ?_⟩
    simpa using List.find?_some h

theorem getPiece_empty {a : ChessArbiter} {s : Int}
    (h : ∀ j : Fin 12, a.Board j &&& shl s = 0) :
    getPieceAtPosition a s = (-1, -1) := by
  simp only [getPieceAtPosition]
  rw [List.find?_eq_none.2 (fun j _ => by simp [h j])]

theorem getPiece_unique {a : ChessArbiter} {s : Int} {i : Fin 12}
    (hp : a.Board i &&& shl s ≠ 0)
    (hu : ∀ j : Fin 12, j ≠ i → a.Board j &&& shl s = 0) :
    getPieceAtPosition a s = ((i : Int), if (i : Nat) ≤ 5 then 0 else 1) := by
  simp only [getPieceAtPosition]
  rw [find?_eq_some_of_unique (List.mem_finRange i) (by simp [hp])
    (fun y _ hy => by simp [hu y hy])]

/- ### boardGet / boardSet -/

theorem boardGet_fin {B : Fin 12 → Nat} (i : Fin 12) :
    boardGet B ((i : Nat) : Int) = B i := by
  have h : (0 : Int) ≤ ((i : Nat) : Int) ∧ ((i : Nat) : Int) < 12 := by
    constructor
    · exact Int.ofNat_nonneg _
    · exact_mod_cast i.isLt
  rw [boardGet, dif_pos h]
  exact congrArg B (by apply Fin.ext; simp)

theorem boardSet_fin {B : Fin 12 → Nat} (i : Fin 12) (v : Nat) :
    boardSet B ((i : Nat) : Int) v = Function.update B i v := by
  have h : (0 : Int) ≤ ((i : Nat) : Int) ∧ ((i : Nat) : Int) < 12 := by
    constructor
    · exact Int.ofNat_nonneg _
    · exact_mod_cast i.isLt
  rw [boardSet, dif_pos h]
  exact congrArg (fun k => Function.update B k v) (by apply Fin.ext; simp)

/- ### Go division on nonnegative operands -/

theorem idiv_nonneg_eq {a : Int} (h : 0 ≤ a) : idiv a 8 = a / 8 :=
  Int.tdiv_eq_ediv h (by norm_num)

theorem imod_nonneg_eq {a : Int} (h : 0 ≤ a) : imod a 8 = a % 8 :=
  Int.tmod_eq_emod h (by norm_num)

theorem rank_file_decomp {p : Int} (h0 : 0 ≤ p) :
    p = idiv p 8 * 8 + imod p 8 ∧ 0 ≤ imod p 8 ∧ imod p 8 < 8 ∧ 0 ≤ idiv p 8 := by
  rw [idiv_nonneg_eq h0, imod_nonneg_eq h0]
  refine ⟨?_, Int.emod_nonneg p (by norm_num), Int.emod_lt_of_pos p (by norm_num), ?_⟩
  · have := Int.ediv_add_emod p 8
    omega
  · exact Int.ediv_nonneg h0 (by norm_num)

end Chess

open Chess

/- ### Field behaviour of the arbiter move applier -/

theorem doSimpleMove_fields (a : ChessArbiter) (fb tb : Nat) (pt : Int) :
    (arbiter.doSimpleMove a fb tb pt).TurnOfPlayer = a.TurnOfPlayer ∧
    (arbiter.doSimpleMove a fb tb pt).WhiteCastle = a.WhiteCastle ∧
    (arbiter.doSimpleMove a fb tb pt).BlackCastle = a.BlackCastle ∧
    (arbiter.doSimpleMove a fb tb pt).EnPassantWhite = a.EnPassantWhite ∧
    (arbiter.doSimpleMove a fb tb pt).EnPassantBlack = a.EnPassantBlack := by
  unfold arbiter.doSimpleMove
  exact ⟨rfl, rfl, rfl, rfl, rfl⟩

theorem doPawnMove_fields (a : ChessArbiter) (fb tb : Nat) (pt pc : Int) (pp : Nat) :
    (arbiter.doPawnMove a fb tb pt pc pp).TurnOfPlayer = a.TurnOfPlayer ∧
    (arbiter.doPawnMove a fb tb pt pc pp).WhiteCastle = a.WhiteCastle ∧
    (arbiter.doPawnMove a fb tb pt pc pp).BlackCastle = a.BlackCastle := by
  simp only [arbiter.doPawnMove]
  split_ifs <;> exact ⟨rfl, rfl, rfl⟩

theorem doPawnMove_enPassant (a : ChessArbiter) (fb tb : Nat) (pt pc : Int) (pp : Nat) :
    (arbiter.doPawnMove a fb tb pt pc pp).EnPassantBlack =
      (if pc = 0 ∧ idiv (findSetBit fb) 8 = 1 ∧ idiv (findSetBit tb) 8 = 3
       then shl ((idiv (findSetBit fb) 8 + 1) * 8 + imod (findSetBit fb) 8) else 0) ∧
    (arbiter.doPawnMove a fb tb pt pc pp).EnPassantWhite =
      (if pc = 1 ∧ idiv (findSetBit fb) 8 = 6 ∧ idiv (findSetBit tb) 8 = 4
       then shl ((idiv (findSetBit fb) 8 - 1) * 8 + imod (findSetBit fb) 8) else 0) := by
  simp only [arbiter.doPawnMove]
  split_ifs <;>
    first
      | exact ⟨rfl, rfl⟩
      | (constructor <;> simp_all)

theorem doKingMove_fields (a : ChessArbiter) (fb tb : Nat) (pt pc : Int) :
    (arbiter.doKingMove a fb tb pt pc).TurnOfPlayer = a.TurnOfPlayer ∧
    (arbiter.doKingMove a fb tb pt pc).EnPassantWhite = a.EnPassantWhite ∧
    (arbiter.doKingMove a fb tb pt pc).EnPassantBlack = a.EnPassantBlack ∧
    (arbiter.doKingMove a fb tb pt pc).WhiteCastle =
      (if pc = 0 then 0 else a.WhiteCastle) ∧
    (arbiter.doKingMove a fb tb pt pc).BlackCastle =
      (if pc = 0 then a.BlackCastle else 0) := by
  simp only [arbiter.doKingMove]
  split_ifs <;> exact ⟨rfl, rfl, rfl, rfl, rfl⟩

/-- Piece/color pairing of `getPieceAtPosition`: the returned color is
determined by the returned piece index. -/
theorem getPiece_snd_of_fst {a : ChessArbiter} {s : Int} {k : Nat} (hk : k < 12)
    (h : (getPieceAtPosition a s).1 = (k : Int)) :
    (getPieceAtPosition a s).2 = (if k ≤ 5 then 0 else 1) := by
  rcases getPiece_cases a s with h0 | ⟨p, hp, _⟩
  · exfalso
    rw [h0] at h
    have h2 : (-1 : Int) = (k : Int) := h
    omega
  · rw [hp] at h ⊢
    have h1 : ((p : Nat) : Int) = (k : Int) := h
    have hpk : (p : Nat) = k := by exact_mod_cast h1
    simp only [hpk]

/- ### Dispatch lemmas for `DoMove` -/

theorem DoMove_eq_doPawnMove {a : ChessArbiter} {m : Move}
    (h : (getPieceAtPosition a (findSetBit m.fromB)).1 = WhitePawn ∨
         (getPieceAtPosition a (findSetBit m.fromB)).1 = BlackPawn) :
    arbiter.DoMove a m =
      arbiter.doPawnMove a m.fromB m.toB
        (getPieceAtPosition a (findSetBit m.fromB)).1
        (getPieceAtPosition a (findSetBit m.fromB)).2 m.promo := by
  simp only [arbiter.DoMove]
  rw [if_pos h]

theorem DoMove_eq_doKingMove {a : ChessArbiter} {m : Move}
    (h : (getPieceAtPosition a (findSetBit m.fromB)).1 = WhiteKing ∨
         (getPieceAtPosition a (findSetBit m.fromB)).1 = BlackKing) :
    arbiter.DoMove a m =
      arbiter.doKingMove a m.fromB m.toB
        (getPieceAtPosition a (findSetBit m.fromB)).1
        (getPieceAtPosition a (findSetBit m.fromB)).2 := by
  have hnp : ¬((getPieceAtPosition a (findSetBit m.fromB)).1 = WhitePawn ∨
      (getPieceAtPosition a (findSetBit m.fromB)).1 = BlackPawn) := by
    simp only [WhiteKing, BlackKing, WhitePawn, BlackPawn] at h ⊢
    omega
  simp only [arbiter.DoMove]
  rw [if_neg hnp, if_pos h]

theorem DoMove_turn_eq (a : ChessArbiter) (m : Move) :
    (arbiter.DoMove a m).TurnOfPlayer = a.TurnOfPlayer := by
  simp only [arbiter.DoMove]
  split_ifs
  · exact (doPawnMove_fields _ _ _ _ _ _).1
  · exact (doKingMove_fields _ _ _ _ _).1
  · exact (doSimpleMove_fields _ _ _ _).1
  · rfl

/- ### Claim C7 -/

/-- C7 (counterexample): the claim says applying a legal move flips the side
to move; but the pawn move e2–e4 is generated as legal in the initial
position, where white is to move, and after `DoMove` white is still recorded
as the side to move. -/
theorem c7_counterexample :
    arbiter.IsValidMove arbiter.startPos Fix.mvE2E4 = true ∧
    Fix.mvE2E4 ∈ arbiter.GenerateValidMoves arbiter.startPos ∧
    arbiter.startPos.TurnOfPlayer = 0 ∧
    (arbiter.DoMove arbiter.startPos Fix.mvE2E4).TurnOfPlayer = 0 := by
  refine ⟨by decide, by decide, rfl, by decide⟩

/-- C7 (amended): for every position and every legal move (with an in-range
promotion word, the only case in which the Go applier returns at all),
`DoMove` leaves the side to move unchanged; the match loop `PlayGame` flips
the turn itself after calling the applier. -/
theorem c7_doMove_turn_unchanged (a : ChessArbiter) (m : Move)
    (hv : arbiter.IsValidMove a m = true) (hpr : m.promo < 12) :
    (arbiter.DoMove a m).TurnOfPlayer = a.TurnOfPlayer :=
  DoMove_turn_eq a m

/-- C7 (witness): the amended theorem applied to the initial position and
the legal move e2–e4. -/
theorem c7_witness :
    arbiter.IsValidMove arbiter.startPos Fix.mvE2E4 = true ∧
    (arbiter.DoMove arbiter.startPos Fix.mvE2E4).TurnOfPlayer =
      arbiter.startPos.TurnOfPlayer :=
  ⟨by decide, c7_doMove_turn_unchanged arbiter.startPos Fix.mvE2E4 (by decide) (by decide)⟩

/- ### Claim C6 -/

theorem DoMove_castles_eq (a : ChessArbiter) (m : Move) :
    (arbiter.DoMove a m).WhiteCastle =
      (if (getPieceAtPosition a (findSetBit m.fromB)).1 = WhiteKing
       then 0 else a.WhiteCastle) ∧
    (arbiter.DoMove a m).BlackCastle =
      (if (getPieceAtPosition a (findSetBit m.fromB)).1 = BlackKing
       then 0 else a.BlackCastle) := by
  by_cases hP : (getPieceAtPosition a (findSetBit m.fromB)).1 = WhitePawn ∨
      (getPieceAtPosition a (findSetBit m.fromB)).1 = BlackPawn
  · rw [DoMove_eq_doPawnMove hP]
    obtain ⟨_, hw, hb⟩ := doPawnMove_fields a m.fromB m.toB
      (getPieceAtPosition a (findSetBit m.fromB)).1
      (getPieceAtPosition a (findSetBit m.fromB)).2 m.promo
    rw [hw, hb,
      if_neg (fun hE => by rw [hE] at hP; exact absurd hP (by decide)),
      if_neg (fun hE => by rw [hE] at hP; exact absurd hP (by decide))]
    exact ⟨rfl, rfl⟩
  · by_cases hK : (getPieceAtPosition a (findSetBit m.fromB)).1 = WhiteKing ∨
        (getPieceAtPosition a (findSetBit m.fromB)).1 = BlackKing
    · rw [DoMove_eq_doKingMove hK]
      obtain ⟨_, _, _, hw, hb⟩ := doKingMove_fields a m.fromB m.toB
        (getPieceAtPosition a (findSetBit m.fromB)).1
        (getPieceAtPosition a (findSetBit m.fromB)).2
      rcases hK with hK | hK
      · have hc : (getPieceAtPosition a (findSetBit m.fromB)).2 = 0 := by
          have h5 := getPiece_snd_of_fst (a := a) (s := findSetBit m.fromB) (k := 0)
            (by norm_num) (by exact_mod_cast hK)
          simpa using h5
        rw [hw, hb, hc, hK]
        simp [WhiteKing, BlackKing]
      · have hc : (getPieceAtPosition a (findSetBit m.fromB)).2 = 1 := by
          have h5 := getPiece_snd_of_fst (a := a) (s := findSetBit m.fromB) (k := 6)
            (by norm_num) (by exact_mod_cast hK)
          simpa using h5
        rw [hw, hb, hc, hK]
        simp [WhiteKing, BlackKing]
    · rw [if_neg (fun hE => hK (Or.inl hE)), if_neg (fun hE => hK (Or.inr hE))]
      simp only [arbiter.DoMove]
      rw [if_neg hP, if_neg hK]
      split_ifs
      · obtain ⟨_, hw, hb, _, _⟩ := doSimpleMove_fields a m.fromB m.toB
          (getPieceAtPosition a (findSetBit m.fromB)).1
        exact ⟨hw, hb⟩
      · exact ⟨rfl, rfl⟩

/-- C6 (counterexample): the claim says a rook move off its home square
clears the corresponding castling flag; but in a position with white Ke1 and
Ra1 and both white flags set, the legal rook move a1–a2 leaves
`WhiteCastle = 3`. -/
theorem c6_counterexample :
    arbiter.IsValidMove Fix.rookHomePos Fix.mvA1A2 = true ∧
    Fix.rookHomePos.WhiteCastle = 3 ∧
    (arbiter.DoMove Fix.rookHomePos Fix.mvA1A2).WhiteCastle = 3 := by
  refine ⟨by decide, rfl, by decide⟩

/-- C6 (amended): `DoMove` clears all castling rights of a side exactly when
that side's king is the moving piece; moves of every other piece — rook
moves off the home square and captures of a rook on its home square
included — leave both castling words unchanged, and no application ever
rewrites a castling word to anything other than itself or zero. -/
theorem c6_castling_rights_update (a : ChessArbiter) (m : Move)
    (hv : arbiter.IsValidMove a m = true) (hpr : m.promo < 12) :
    ((getPieceAtPosition a (findSetBit m.fromB)).1 = WhiteKing →
      (arbiter.DoMove a m).WhiteCastle = 0 ∧
      (arbiter.DoMove a m).BlackCastle = a.BlackCastle) ∧
    ((getPieceAtPosition a (findSetBit m.fromB)).1 = BlackKing →
      (arbiter.DoMove a m).BlackCastle = 0 ∧
      (arbiter.DoMove a m).WhiteCastle = a.WhiteCastle) ∧
    ((getPieceAtPosition a (findSetBit m.fromB)).1 ≠ WhiteKing →
     (getPieceAtPosition a (findSetBit m.fromB)).1 ≠ BlackKing →
      (arbiter.DoMove a m).WhiteCastle = a.WhiteCastle ∧
      (arbiter.DoMove a m).BlackCastle = a.BlackCastle) ∧
    ((arbiter.DoMove a m).WhiteCastle = a.WhiteCastle ∨
      (arbiter.DoMove a m).WhiteCastle = 0) ∧
    ((arbiter.DoMove a m).BlackCastle = a.BlackCastle ∨
      (arbiter.DoMove a m).BlackCastle = 0) := by
  obtain ⟨hw, hb⟩ := DoMove_castles_eq a m
  refine ⟨?_, ?_, ?_, ?_, ?_⟩
  · intro h
    rw [hw, hb, if_pos h, if_neg (fun hE => by rw [h] at hE; exact absurd hE (by decide))]
    exact ⟨rfl, rfl⟩
  · intro h
    rw [hw, hb, if_pos h, if_neg (fun hE => by rw [h] at hE; exact absurd hE (by decide))]
    exact ⟨rfl, rfl⟩
  · intro h1 h2
    rw [hw, hb, if_neg h1, if_neg h2]
    exact ⟨rfl, rfl⟩
  · rw [hw]
    split_ifs
    · right; rfl
    · left; rfl
  · rw [hb]
    split_ifs
    · right; rfl
    · left; rfl

/-- C6 (witness): the amended theorem applied to the rook-on-home position
and the legal rook move a1–a2 (no castling word changes). -/
theorem c6_witness :
    arbiter.IsValidMove Fix.rookHomePos Fix.mvA1A2 = true ∧
    ((getPieceAtPosition Fix.rookHomePos (findSetBit Fix.mvA1A2.fromB)).1 ≠ WhiteKing →
     (getPieceAtPosition Fix.rookHomePos (findSetBit Fix.mvA1A2.fromB)).1 ≠ BlackKing →
      (arbiter.DoMove Fix.rookHomePos Fix.mvA1A2).WhiteCastle = Fix.rookHomePos.WhiteCastle ∧
      (arbiter.DoMove Fix.rookHomePos Fix.mvA1A2).BlackCastle = Fix.rookHomePos.BlackCastle) :=
  ⟨by decide,
   (c6_castling_rights_update Fix.rookHomePos Fix.mvA1A2 (by decide) (by decide)).2.2.1⟩

/- ### Claim C5 -/

theorem DoMove_ep_eq (a : ChessArbiter) (m : Move) :
    ((getPieceAtPosition a (findSetBit m.fromB)).1 = WhitePawn ∨
     (getPieceAtPosition a (findSetBit m.fromB)).1 = BlackPawn →
      (arbiter.DoMove a m).EnPassantBlack =
        (if (getPieceAtPosition a (findSetBit m.fromB)).2 = 0 ∧
            idiv (findSetBit m.fromB) 8 = 1 ∧ idiv (findSetBit m.toB) 8 = 3
         then shl ((idiv (findSetBit m.fromB) 8 + 1) * 8 + imod (findSetBit m.fromB) 8)
         else 0) ∧
      (arbiter.DoMove a m).EnPassantWhite =
        (if (getPieceAtPosition a (findSetBit m.fromB)).2 = 1 ∧
            idiv (findSetBit m.fromB) 8 = 6 ∧ idiv (findSetBit m.toB) 8 = 4
         then shl ((idiv (findSetBit m.fromB) 8 - 1) * 8 + imod (findSetBit m.fromB) 8)
         else 0)) ∧
    (¬((getPieceAtPosition a (findSetBit m.fromB)).1 = WhitePawn ∨
       (getPieceAtPosition a (findSetBit m.fromB)).1 = BlackPawn) →
      (arbiter.DoMove a m).EnPassantWhite = a.EnPassantWhite ∧
      (arbiter.DoMove a m).EnPassantBlack = a.EnPassantBlack) := by
  constructor
  · intro hP
    rw [DoMove_eq_doPawnMove hP]
    obtain ⟨he1, he2⟩ := doPawnMove_enPassant a m.fromB m.toB
      (getPieceAtPosition a (findSetBit m.fromB)).1
      (getPieceAtPosition a (findSetBit m.fromB)).2 m.promo
    exact ⟨he1, he2⟩
  · intro hP
    by_cases hK : (getPieceAtPosition a (findSetBit m.fromB)).1 = WhiteKing ∨
        (getPieceAtPosition a (findSetBit m.fromB)).1 = BlackKing
    · rw [DoMove_eq_doKingMove hK]
      obtain ⟨_, he1, he2, _, _⟩ := doKingMove_fields a m.fromB m.toB
        (getPieceAtPosition a (findSetBit m.fromB)).1
        (getPieceAtPosition a (findSetBit m.fromB)).2
      exact ⟨he1, he2⟩
    · simp only [arbiter.DoMove]
      rw [if_neg hP, if_neg hK]
      split_ifs
      · obtain ⟨_, _, _, he1, he2⟩ := doSimpleMove_fields a m.fromB m.toB
          (getPieceAtPosition a (findSetBit m.fromB)).1
        exact ⟨he1, he2⟩
      · exact ⟨rfl, rfl⟩

/-- C5 (counterexample): the claim says every application first clears both
en-passant targets; but after 1. e4 (which records the target e3 in
`EnPassantBlack`) the legal knight reply b8–c6 is applied by `DoMove` and
the stale target e3 survives: the resulting position still has
`EnPassantBlack = 2^20` although its last move was not a double push. -/
theorem c5_counterexample :
    Fix.mvE2E4 ∈ arbiter.GenerateValidMoves arbiter.startPos ∧
    Fix.mvB8C6 ∈ arbiter.GenerateValidMoves Fix.afterE4 ∧
    Fix.afterE4.EnPassantBlack = 1 <<< 20 ∧
    (arbiter.DoMove Fix.afterE4 Fix.mvB8C6).EnPassantBlack = 1 <<< 20 := by
  refine ⟨by decide, by decide, by decide, by decide⟩

/-- C5 (amended): only pawn applications recompute the en-passant state:
when the moving piece is a pawn, `DoMove` clears both colors' targets and
then sets the opponent's target to the passed-over square exactly when the
from/to ranks match a double push; when the moving piece is anything else
(king, queen, rook, bishop, knight, or an empty from-square), both
en-passant fields are left untouched, so a stale target persists until the
next pawn move. -/
theorem c5_en_passant_bookkeeping (a : ChessArbiter) (m : Move)
    (hv : arbiter.IsValidMove a m = true) (hpr : m.promo < 12) :
    ((getPieceAtPosition a (findSetBit m.fromB)).1 = WhitePawn ∨
     (getPieceAtPosition a (findSetBit m.fromB)).1 = BlackPawn →
      (arbiter.DoMove a m).EnPassantBlack =
        (if (getPieceAtPosition a (findSetBit m.fromB)).2 = 0 ∧
            idiv (findSetBit m.fromB) 8 = 1 ∧ idiv (findSetBit m.toB) 8 = 3
         then shl ((idiv (findSetBit m.fromB) 8 + 1) * 8 + imod (findSetBit m.fromB) 8)
         else 0) ∧
      (arbiter.DoMove a m).EnPassantWhite =
        (if (getPieceAtPosition a (findSetBit m.fromB)).2 = 1 ∧
            idiv (findSetBit m.fromB) 8 = 6 ∧ idiv (findSetBit m.toB) 8 = 4
         then shl ((idiv (findSetBit m.fromB) 8 - 1) * 8 + imod (findSetBit m.fromB) 8)
         else 0)) ∧
    (¬((getPieceAtPosition a (findSetBit m.fromB)).1 = WhitePawn ∨
       (getPieceAtPosition a (findSetBit m.fromB)).1 = BlackPawn) →
      (arbiter.DoMove a m).EnPassantWhite = a.EnPassantWhite ∧
      (arbiter.DoMove a m).EnPassantBlack = a.EnPassantBlack) :=
  DoMove_ep_eq a m

/-- C5 (witness): the amended theorem applied to the position after 1. e4
and the legal knight move b8–c6 (a non-pawn move, so both fields persist). -/
theorem c5_witness :
    arbiter.IsValidMove Fix.afterE4 Fix.mvB8C6 = true ∧
    (¬((getPieceAtPosition Fix.afterE4 (findSetBit Fix.mvB8C6.fromB)).1 = WhitePawn ∨
       (getPieceAtPosition Fix.afterE4 (findSetBit Fix.mvB8C6.fromB)).1 = BlackPawn) →
      (arbiter.DoMove Fix.afterE4 Fix.mvB8C6).EnPassantWhite = Fix.afterE4.EnPassantWhite ∧
      (arbiter.DoMove Fix.afterE4 Fix.mvB8C6).EnPassantBlack = Fix.afterE4.EnPassantBlack) :=
  ⟨by decide, (c5_en_passant_bookkeeping Fix.afterE4 Fix.mvB8C6 (by decide) (by decide)).2⟩

/- ### Claim C10 -/

/-- C10: for every position and every move whose from- or to-bitboard is not
a single set bit (zero included), `IsValidMove` returns `false`; moreover the
`-1` sentinel of `findSetBit` cannot reach `getPieceAtPosition` on the
surviving path, because whenever the popcount test passes the corresponding
bitboard is a power of two and `findSetBit` yields its nonnegative index. -/
theorem c10_single_bit_guard (a : ChessArbiter) (m : Move)
    (hf : m.fromB < 2 ^ 64) (ht : m.toB < 2 ^ 64)
    (h : (¬∃ i, m.fromB = 2 ^ i) ∨ (¬∃ i, m.toB = 2 ^ i)) :
    arbiter.IsValidMove a m = false ∧
    (countSetBits m.fromB = 1 → 0 ≤ findSetBit m.fromB) ∧
    (countSetBits m.toB = 1 → 0 ≤ findSetBit m.toB) := by
  have sentinel : ∀ b : Nat, b < 2 ^ 64 → countSetBits b = 1 → 0 ≤ findSetBit b := by
    intro b hb hc
    obtain ⟨i, hi⟩ := countSetBits_eq_one_iff.1 hc
    have hi64 : i < 64 := by
      by_contra hge
      have hle : (2 : Nat) ^ 64 ≤ 2 ^ i := Nat.pow_le_pow_right (by norm_num) (by omega)
      omega
    rw [hi, findSetBit_two_pow hi64]
    exact Int.ofNat_nonneg i
  refine ⟨?_, sentinel m.fromB hf, sentinel m.toB ht⟩
  simp only [arbiter.IsValidMove]
  rw [if_pos ?_]
  rcases h with h | h
  · exact Or.inl (fun hc => h (countSetBits_eq_one_iff.1 hc))
  · exact Or.inr (fun hc => h (countSetBits_eq_one_iff.1 hc))

/-- C10 (witness): the theorem applied to the initial position and a move
with an empty from-bitboard. -/
theorem c10_witness :
    (¬∃ i, (0 : Nat) = 2 ^ i) ∧
    arbiter.IsValidMove arbiter.startPos ⟨0, 1 <<< 12, 0⟩ = false :=
  ⟨fun ⟨i, hi⟩ =>
    absurd hi.symm (Nat.pos_iff_ne_zero.mp (Nat.pos_pow_of_pos i (by norm_num))),
   (c10_single_bit_guard arbiter.startPos ⟨0, 1 <<< 12, 0⟩ (by norm_num) (by decide)
      (Or.inl (fun ⟨i, hi⟩ =>
        absurd hi.symm (Nat.pos_iff_ne_zero.mp (Nat.pos_pow_of_pos i (by norm_num)))))).1⟩

/- ### Claim C3 (code bug) -/

/-- C3: code bug, evaluated at the failing input.  Playing
1. e4 d5 2. e5 f5 through the applier (with the match loop's turn flips)
leaves the double-push target f6 in `EnPassantWhite`, while the white-pawn
validator and generator read `EnPassantBlack`; hence e5xf6 is rejected and
never generated, although the specification requires it to be offered. -/
theorem c3_en_passant_capture_never_offered :
    Fix.mvE2E4 ∈ arbiter.GenerateValidMoves arbiter.startPos ∧
    Fix.mvD7D5 ∈ arbiter.GenerateValidMoves Fix.afterE4 ∧
    Fix.mvE4E5 ∈ arbiter.GenerateValidMoves Fix.afterE4D5 ∧
    Fix.mvF7F5 ∈ arbiter.GenerateValidMoves Fix.afterE4D5E5 ∧
    Fix.epTestPos.TurnOfPlayer = 0 ∧
    Fix.epTestPos.EnPassantWhite = 1 <<< 45 ∧
    Fix.epTestPos.EnPassantBlack = 0 ∧
    arbiter.IsValidMove Fix.epTestPos Fix.mvE5F6 = false ∧
    Fix.mvE5F6 ∉ arbiter.GenerateValidMoves Fix.epTestPos := by
  refine ⟨by decide, by decide, by decide, by decide, by decide, by decide, by decide,
    by decide, by decide⟩

/- ### Claim C1 (code bug) -/

/-- C1: code bug, evaluated at the failing input.  Against black Ra2/Kh8 the
white king move e1–e2 moves straight into the rook's rank, yet both
generators offer it (the arbiter version has no king-safety probe at all;
the engine1 probe sets the buffer's turn to the opponent and therefore tests
the wrong king), and after applying it the mover's own king is attacked —
per the engine1 attack oracle and per the arbiter's generate-and-test
check alike. -/
theorem c1_post_move_king_safety_missing :
    Fix.mvE1E2 ∈ engine1.GenerateValidMoves Fix.intoCheckPos ∧
    Fix.mvE1E2 ∈ arbiter.GenerateValidMoves Fix.intoCheckPos ∧
    (arbiter.DoMove Fix.intoCheckPos Fix.mvE1E2).TurnOfPlayer = 0 ∧
    engine1.IsCheck (arbiter.DoMove Fix.intoCheckPos Fix.mvE1E2) = true ∧
    arbiter.IsCheck (arbiter.DoMove Fix.intoCheckPos Fix.mvE1E2) = true := by
  refine ⟨by decide, by decide, by decide, by decide, by decide⟩


/- ### Claim C2 -/

theorem c2aux_arbiter_wk (a : ChessArbiter)
    (hk : (getPieceAtPosition a 4).1 = WhiteKing)
    (hacc : arbiter.IsValidMove a ⟨1 <<< 4, 1 <<< 6, 0⟩ = true) :
    iand a.WhiteCastle 1 ≠ 0 ∧
    (getPieceAtPosition a 5).1 = -1 ∧
    (getPieceAtPosition a 6).1 = -1 ∧
    (getPieceAtPosition a 7).1 = WhiteRook ∧ (getPieceAtPosition a 7).2 = 0 := by
  simp only [arbiter.IsValidMove, arbiter.isValidKingMove] at hacc
  have f1 : findSetBit ((1:Nat) <<< 4) = 4 := by decide
  have f2 : findSetBit ((1:Nat) <<< 6) = 6 := by decide
  have c1 : countSetBits ((1:Nat) <<< 4) = 1 := by decide
  have c2 : countSetBits ((1:Nat) <<< 6) = 1 := by decide
  simp only [f1, f2, c1, c2] at hacc
  norm_num [idiv, imod, iabs] at hacc
  have d1 : Int.tdiv 6 8 = 0 := by decide
  have d2 : Int.tdiv 4 8 = 0 := by decide
  have d3 : Int.tmod 6 8 = 6 := by decide
  have d4 : Int.tmod 4 8 = 4 := by decide
  have hk2 : (getPieceAtPosition a 4).2 = 0 := by
    simpa using getPiece_snd_of_fst (a := a) (s := 4) (k := 0) (by norm_num)
      (by exact_mod_cast hk)
  simp only [d1, d2, d3, d4, hk, WhiteKing, WhitePawn, BlackPawn, BlackKing] at hacc
  norm_num at hacc
  tauto

theorem c2aux_arbiter_wq (a : ChessArbiter)
    (hk : (getPieceAtPosition a 4).1 = WhiteKing)
    (hacc : arbiter.IsValidMove a ⟨1 <<< 4, 1 <<< 2, 0⟩ = true) :
    iand a.WhiteCastle 2 ≠ 0 ∧
    (getPieceAtPosition a 1).1 = -1 ∧
    (getPieceAtPosition a 2).1 = -1 ∧
    (getPieceAtPosition a 3).1 = -1 ∧
    (getPieceAtPosition a 0).1 = WhiteRook ∧ (getPieceAtPosition a 0).2 = 0 := by
  simp only [arbiter.IsValidMove, arbiter.isValidKingMove] at hacc
  have f1 : findSetBit ((1:Nat) <<< 4) = 4 := by decide
  have f2 : findSetBit ((1:Nat) <<< 2) = 2 := by decide
  have c1 : countSetBits ((1:Nat) <<< 4) = 1 := by decide
  have c2 : countSetBits ((1:Nat) <<< 2) = 1 := by decide
  simp only [f1, f2, c1, c2] at hacc
  norm_num [idiv, imod, iabs] at hacc
  have d1 : Int.tdiv 2 8 = 0 := by decide
  have d2 : Int.tdiv 4 8 = 0 := by decide
  have d3 : Int.tmod 2 8 = 2 := by decide
  have d4 : Int.tmod 4 8 = 4 := by decide
  have hk2 : (getPieceAtPosition a 4).2 = 0 := by
    simpa using getPiece_snd_of_fst (a := a) (s := 4) (k := 0) (by norm_num)
      (by exact_mod_cast hk)
  simp only [d1, d2, d3, d4, hk, WhiteKing, WhitePawn, BlackPawn, BlackKing] at hacc
  norm_num at hacc
  tauto

theorem c2aux_arbiter_bk (a : ChessArbiter)
    (hk : (getPieceAtPosition a 60).1 = BlackKing)
    (hacc : arbiter.IsValidMove a ⟨1 <<< 60, 1 <<< 62, 0⟩ = true) :
    iand a.BlackCastle 1 ≠ 0 ∧
    (getPieceAtPosition a 61).1 = -1 ∧
    (getPieceAtPosition a 62).1 = -1 ∧
    (getPieceAtPosition a 63).1 = BlackRook ∧ (getPieceAtPosition a 63).2 = 1 := by
  simp only [arbiter.IsValidMove, arbiter.isValidKingMove] at hacc
  have f1 : findSetBit ((1:Nat) <<< 60) = 60 := by decide
  have f2 : findSetBit ((1:Nat) <<< 62) = 62 := by decide
  have c1 : countSetBits ((1:Nat) <<< 60) = 1 := by decide
  have c2 : countSetBits ((1:Nat) <<< 62) = 1 := by decide
  simp only [f1, f2, c1, c2] at hacc
  norm_num [idiv, imod, iabs] at hacc
  have d1 : Int.tdiv 62 8 = 7 := by decide
  have d2 : Int.tdiv 60 8 = 7 := by decide
  have d3 : Int.tmod 62 8 = 6 := by decide
  have d4 : Int.tmod 60 8 = 4 := by decide
  have hk2 : (getPieceAtPosition a 60).2 = 1 := by
    simpa using getPiece_snd_of_fst (a := a) (s := 60) (k := 6) (by norm_num)
      (by exact_mod_cast hk)
  simp only [d1, d2, d3, d4, hk, WhiteKing, WhitePawn, BlackPawn, BlackKing] at hacc
  norm_num at hacc
  tauto

theorem c2aux_arbiter_bq (a : ChessArbiter)
    (hk : (getPieceAtPosition a 60).1 = BlackKing)
    (hacc : arbiter.IsValidMove a ⟨1 <<< 60, 1 <<< 58, 0⟩ = true) :
    iand a.BlackCastle 2 ≠ 0 ∧
    (getPieceAtPosition a 57).1 = -1 ∧
    (getPieceAtPosition a 58).1 = -1 ∧
    (getPieceAtPosition a 59).1 = -1 ∧
    (getPieceAtPosition a 56).1 = BlackRook ∧ (getPieceAtPosition a 56).2 = 1 := by
  simp only [arbiter.IsValidMove, arbiter.isValidKingMove] at hacc
  have f1 : findSetBit ((1:Nat) <<< 60) = 60 := by decide
  have f2 : findSetBit ((1:Nat) <<< 58) = 58 := by decide
  have c1 : countSetBits ((1:Nat) <<< 60) = 1 := by decide
  have c2 : countSetBits ((1:Nat) <<< 58) = 1 := by decide
  simp only [f1, f2, c1, c2] at hacc
  norm_num [idiv, imod, iabs] at hacc
  have d1 : Int.tdiv 58 8 = 7 := by decide
  have d2 : Int.tdiv 60 8 = 7 := by decide
  have d3 : Int.tmod 58 8 = 2 := by decide
  have d4 : Int.tmod 60 8 = 4 := by decide
  have hk2 : (getPieceAtPosition a 60).2 = 1 := by
    simpa using getPiece_snd_of_fst (a := a) (s := 60) (k := 6) (by norm_num)
      (by exact_mod_cast hk)
  simp only [d1, d2, d3, d4, hk, WhiteKing, WhitePawn, BlackPawn, BlackKing] at hacc
  norm_num at hacc
  tauto

theorem c2aux_engine1_wk (a : ChessArbiter)
    (hk : (getPieceAtPosition a 4).1 = WhiteKing)
    (hacc : engine1.IsValidMove a ⟨1 <<< 4, 1 <<< 6, 0⟩ = true) :
    iand a.WhiteCastle 1 ≠ 0 ∧
    (getPieceAtPosition a 5).1 = -1 ∧
    (getPieceAtPosition a 6).1 = -1 ∧
    (getPieceAtPosition a 7).1 = WhiteRook ∧ (getPieceAtPosition a 7).2 = 0 ∧
    engine1.IsCheck a = false := by
  simp only [engine1.IsValidMove, engine1.isValidKingMove] at hacc
  have f1 : findSetBit ((1:Nat) <<< 4) = 4 := by decide
  have f2 : findSetBit ((1:Nat) <<< 6) = 6 := by decide
  have c1 : countSetBits ((1:Nat) <<< 4) = 1 := by decide
  have c2 : countSetBits ((1:Nat) <<< 6) = 1 := by decide
  simp only [f1, f2, c1, c2] at hacc
  norm_num [idiv, imod, iabs] at hacc
  have d1 : Int.tdiv 6 8 = 0 := by decide
  have d2 : Int.tdiv 4 8 = 0 := by decide
  have d3 : Int.tmod 6 8 = 6 := by decide
  have d4 : Int.tmod 4 8 = 4 := by decide
  have hk2 : (getPieceAtPosition a 4).2 = 0 := by
    simpa using getPiece_snd_of_fst (a := a) (s := 4) (k := 0) (by norm_num)
      (by exact_mod_cast hk)
  simp only [d1, d2, d3, d4, hk, WhiteKing, WhitePawn, BlackPawn, BlackKing] at hacc
  norm_num at hacc
  tauto

theorem c2aux_engine1_wq (a : ChessArbiter)
    (hk : (getPieceAtPosition a 4).1 = WhiteKing)
    (hacc : engine1.IsValidMove a ⟨1 <<< 4, 1 <<< 2, 0⟩ = true) :
    iand a.WhiteCastle 2 ≠ 0 ∧
    (getPieceAtPosition a 1).1 = -1 ∧
    (getPieceAtPosition a 2).1 = -1 ∧
    (getPieceAtPosition a 3).1 = -1 ∧
    (getPieceAtPosition a 0).1 = WhiteRook ∧ (getPieceAtPosition a 0).2 = 0 ∧
    engine1.IsCheck a = false := by
  simp only [engine1.IsValidMove, engine1.isValidKingMove] at hacc
  have f1 : findSetBit ((1:Nat) <<< 4) = 4 := by decide
  have f2 : findSetBit ((1:Nat) <<< 2) = 2 := by decide
  have c1 : countSetBits ((1:Nat) <<< 4) = 1 := by decide
  have c2 : countSetBits ((1:Nat) <<< 2) = 1 := by decide
  simp only [f1, f2, c1, c2] at hacc
  norm_num [idiv, imod, iabs] at hacc
  have d1 : Int.tdiv 2 8 = 0 := by decide
  have d2 : Int.tdiv 4 8 = 0 := by decide
  have d3 : Int.tmod 2 8 = 2 := by decide
  have d4 : Int.tmod 4 8 = 4 := by decide
  have hk2 : (getPieceAtPosition a 4).2 = 0 := by
    simpa using getPiece_snd_of_fst (a := a) (s := 4) (k := 0) (by norm_num)
      (by exact_mod_cast hk)
  simp only [d1, d2, d3, d4, hk, WhiteKing, WhitePawn, BlackPawn, BlackKing] at hacc
  norm_num at hacc
  tauto

theorem c2aux_engine1_bk (a : ChessArbiter)
    (hk : (getPieceAtPosition a 60).1 = BlackKing)
    (hacc : engine1.IsValidMove a ⟨1 <<< 60, 1 <<< 62, 0⟩ = true) :
    iand a.BlackCastle 1 ≠ 0 ∧
    (getPieceAtPosition a 61).1 = -1 ∧
    (getPieceAtPosition a 62).1 = -1 ∧
    (getPieceAtPosition a 63).1 = BlackRook ∧ (getPieceAtPosition a 63).2 = 1 ∧
    engine1.IsCheck a = false := by
  simp only [engine1.IsValidMove, engine1.isValidKingMove] at hacc
  have f1 : findSetBit ((1:Nat) <<< 60) = 60 := by decide
  have f2 : findSetBit ((1:Nat) <<< 62) = 62 := by decide
  have c1 : countSetBits ((1:Nat) <<< 60) = 1 := by decide
  have c2 : countSetBits ((1:Nat) <<< 62) = 1 := by decide
  simp only [f1, f2, c1, c2] at hacc
  norm_num [idiv, imod, iabs] at hacc
  have d1 : Int.tdiv 62 8 = 7 := by decide
  have d2 : Int.tdiv 60 8 = 7 := by decide
  have d3 : Int.tmod 62 8 = 6 := by decide
  have d4 : Int.tmod 60 8 = 4 := by decide
  have hk2 : (getPieceAtPosition a 60).2 = 1 := by
    simpa using getPiece_snd_of_fst (a := a) (s := 60) (k := 6) (by norm_num)
      (by exact_mod_cast hk)
  simp only [d1, d2, d3, d4, hk, WhiteKing, WhitePawn, BlackPawn, BlackKing] at hacc
  norm_num at hacc
  tauto

theorem c2aux_engine1_bq (a : ChessArbiter)
    (hk : (getPieceAtPosition a 60).1 = BlackKing)
    (hacc : engine1.IsValidMove a ⟨1 <<< 60, 1 <<< 58, 0⟩ = true) :
    iand a.BlackCastle 2 ≠ 0 ∧
    (getPieceAtPosition a 57).1 = -1 ∧
    (getPieceAtPosition a 58).1 = -1 ∧
    (getPieceAtPosition a 59).1 = -1 ∧
    (getPieceAtPosition a 56).1 = BlackRook ∧ (getPieceAtPosition a 56).2 = 1 ∧
    engine1.IsCheck a = false := by
  simp only [engine1.IsValidMove, engine1.isValidKingMove] at hacc
  have f1 : findSetBit ((1:Nat) <<< 60) = 60 := by decide
  have f2 : findSetBit ((1:Nat) <<< 58) = 58 := by decide
  have c1 : countSetBits ((1:Nat) <<< 60) = 1 := by decide
  have c2 : countSetBits ((1:Nat) <<< 58) = 1 := by decide
  simp only [f1, f2, c1, c2] at hacc
  norm_num [idiv, imod, iabs] at hacc
  have d1 : Int.tdiv 58 8 = 7 := by decide
  have d2 : Int.tdiv 60 8 = 7 := by decide
  have d3 : Int.tmod 58 8 = 2 := by decide
  have d4 : Int.tmod 60 8 = 4 := by decide
  have hk2 : (getPieceAtPosition a 60).2 = 1 := by
    simpa using getPiece_snd_of_fst (a := a) (s := 60) (k := 6) (by norm_num)
      (by exact_mod_cast hk)
  simp only [d1, d2, d3, d4, hk, WhiteKing, WhitePawn, BlackPawn, BlackKing] at hacc
  norm_num at hacc
  tauto

/-- C2 (counterexample): the claimed castling gates are not all enforced.
With white Ke1/Rh1, black Re8 and Ka8, the white king is in check by the
repository's own check tests, yet the arbiter validator accepts e1–g1 (its
check-related gates exist only as comments); and with black Rf8 instead, the
transit square f1 is attacked by the opponent, yet the engine1 validator
accepts e1–g1 (its transit/destination probes set the buffer's turn to the
opponent and so test the wrong king). -/
theorem c2_counterexample :
    arbiter.IsCheck Fix.checkedCastlePos = true ∧
    engine1.IsCheck Fix.checkedCastlePos = true ∧
    arbiter.IsValidMove Fix.checkedCastlePos Fix.mvE1G1 = true ∧
    engine1.isSquareAttacked Fix.transitAttackPos 5 1 = true ∧
    engine1.IsCheck Fix.transitAttackPos = false ∧
    engine1.IsValidMove Fix.transitAttackPos Fix.mvE1G1 = true := by
  refine ⟨by decide, by decide, by decide, by decide, by decide, by decide⟩

/-- C2 (amended): for every position, a two-file horizontal king move from
the king's home square is accepted as castling only if the corresponding
castling-rights flag is set, every square strictly between king and rook is
empty, and the rook is present on its home square; the engine1 validator
additionally requires that the mover is not currently in check.  (The
transit/destination attack conditions of the original claim are not
enforced by either validator — the arbiter tests nothing check-related, and
engine1's buffer probes test the opponent's king.) -/
theorem c2_castling_gating (a : ChessArbiter) :
    (arbiter.IsValidMove a ⟨1 <<< 4, 1 <<< 6, 0⟩ = true →
      (getPieceAtPosition a 4).1 = WhiteKing →
        iand a.WhiteCastle 1 ≠ 0 ∧
        (getPieceAtPosition a 5).1 = -1 ∧ (getPieceAtPosition a 6).1 = -1 ∧
        (getPieceAtPosition a 7).1 = WhiteRook ∧ (getPieceAtPosition a 7).2 = 0) ∧
    (arbiter.IsValidMove a ⟨1 <<< 4, 1 <<< 2, 0⟩ = true →
      (getPieceAtPosition a 4).1 = WhiteKing →
        iand a.WhiteCastle 2 ≠ 0 ∧
        (getPieceAtPosition a 1).1 = -1 ∧ (getPieceAtPosition a 2).1 = -1 ∧
        (getPieceAtPosition a 3).1 = -1 ∧
        (getPieceAtPosition a 0).1 = WhiteRook ∧ (getPieceAtPosition a 0).2 = 0) ∧
    (arbiter.IsValidMove a ⟨1 <<< 60, 1 <<< 62, 0⟩ = true →
      (getPieceAtPosition a 60).1 = BlackKing →
        iand a.BlackCastle 1 ≠ 0 ∧
        (getPieceAtPosition a 61).1 = -1 ∧ (getPieceAtPosition a 62).1 = -1 ∧
        (getPieceAtPosition a 63).1 = BlackRook ∧ (getPieceAtPosition a 63).2 = 1) ∧
    (arbiter.IsValidMove a ⟨1 <<< 60, 1 <<< 58, 0⟩ = true →
      (getPieceAtPosition a 60).1 = BlackKing →
        iand a.BlackCastle 2 ≠ 0 ∧
        (getPieceAtPosition a 57).1 = -1 ∧ (getPieceAtPosition a 58).1 = -1 ∧
        (getPieceAtPosition a 59).1 = -1 ∧
        (getPieceAtPosition a 56).1 = BlackRook ∧ (getPieceAtPosition a 56).2 = 1) ∧
    (engine1.IsValidMove a ⟨1 <<< 4, 1 <<< 6, 0⟩ = true →
      (getPieceAtPosition a 4).1 = WhiteKing →
        iand a.WhiteCastle 1 ≠ 0 ∧
        (getPieceAtPosition a 5).1 = -1 ∧ (getPieceAtPosition a 6).1 = -1 ∧
        (getPieceAtPosition a 7).1 = WhiteRook ∧ (getPieceAtPosition a 7).2 = 0 ∧
        engine1.IsCheck a = false) ∧
    (engine1.IsValidMove a ⟨1 <<< 4, 1 <<< 2, 0⟩ = true →
      (getPieceAtPosition a 4).1 = WhiteKing →
        iand a.WhiteCastle 2 ≠ 0 ∧
        (getPieceAtPosition a 1).1 = -1 ∧ (getPieceAtPosition a 2).1 = -1 ∧
        (getPieceAtPosition a 3).1 = -1 ∧
        (getPieceAtPosition a 0).1 = WhiteRook ∧ (getPieceAtPosition a 0).2 = 0 ∧
        engine1.IsCheck a = false) ∧
    (engine1.IsValidMove a ⟨1 <<< 60, 1 <<< 62, 0⟩ = true →
      (getPieceAtPosition a 60).1 = BlackKing →
        iand a.BlackCastle 1 ≠ 0 ∧
        (getPieceAtPosition a 61).1 = -1 ∧ (getPieceAtPosition a 62).1 = -1 ∧
        (getPieceAtPosition a 63).1 = BlackRook ∧ (getPieceAtPosition a 63).2 = 1 ∧
        engine1.IsCheck a = false) ∧
    (engine1.IsValidMove a ⟨1 <<< 60, 1 <<< 58, 0⟩ = true →
      (getPieceAtPosition a 60).1 = BlackKing →
        iand a.BlackCastle 2 ≠ 0 ∧
        (getPieceAtPosition a 57).1 = -1 ∧ (getPieceAtPosition a 58).1 = -1 ∧
        (getPieceAtPosition a 59).1 = -1 ∧
        (getPieceAtPosition a 56).1 = BlackRook ∧ (getPieceAtPosition a 56).2 = 1 ∧
        engine1.IsCheck a = false) := by
  refine ⟨?_, ?_, ?_, ?_, ?_, ?_, ?_, ?_⟩
  · intro hacc hk
    have h := c2aux_arbiter_wk a hk hacc
    tauto
  · intro hacc hk
    have h := c2aux_arbiter_wq a hk hacc
    tauto
  · intro hacc hk
    have h := c2aux_arbiter_bk a hk hacc
    tauto
  · intro hacc hk
    have h := c2aux_arbiter_bq a hk hacc
    tauto
  · intro hacc hk
    have h := c2aux_engine1_wk a hk hacc
    tauto
  · intro hacc hk
    have h := c2aux_engine1_wq a hk hacc
    tauto
  · intro hacc hk
    have h := c2aux_engine1_bk a hk hacc
    tauto
  · intro hacc hk
    have h := c2aux_engine1_bq a hk hacc
    tauto

/-- C2 (witness): the amended theorem applied to the all-rights castling
position, in which both validators accept e1–g1 and the gates all hold. -/
theorem c2_witness :
    arbiter.IsValidMove Fix.fullCastlePos ⟨1 <<< 4, 1 <<< 6, 0⟩ = true ∧
    (getPieceAtPosition Fix.fullCastlePos 4).1 = WhiteKing ∧
    (iand Fix.fullCastlePos.WhiteCastle 1 ≠ 0 ∧
      (getPieceAtPosition Fix.fullCastlePos 5).1 = -1 ∧
      (getPieceAtPosition Fix.fullCastlePos 6).1 = -1 ∧
      (getPieceAtPosition Fix.fullCastlePos 7).1 = WhiteRook ∧
      (getPieceAtPosition Fix.fullCastlePos 7).2 = 0) :=
  ⟨by decide, by decide,
   (c2_castling_gating Fix.fullCastlePos).1 (by decide) (by decide)⟩

/- ### Claim C9 -/

/-- C9 (counterexample): the empty string splits into a single field, yet
the decoder substitutes the default FEN and succeeds instead of returning
the error; and a four-field input whose en-passant field is the single
character e makes the Go decoder panic on `parts[3][1]` instead of
returning a recoverable value. -/
theorem c9_counterexample :
    ((("" : String).data.splitOn ' ').length < 4) ∧
    (arbiter.CreateGameArbiter "").isErr = false ∧
    (arbiter.CreateGameArbiter "8/8/8/8/8/8/8/8 w - e").isErr = false ∧
    (arbiter.CreateGameArbiter "8/8/8/8/8/8/8/8 w - e").isPanic = true := by
  refine ⟨by decide, by decide, by decide, by decide⟩

/-- C9 (amended): the decoder returns the recoverable "invalid FEN" error
exactly when the input is nonempty and splits into fewer than four
space-separated fields (the empty string is replaced by the default FEN and
succeeds); with at least four fields it never returns the error value, but
it is not failure-free: a placement field that closes more than eight ranks,
or an en-passant field other than "-" that is shorter than two characters,
makes the Go process panic (modelled by the `panicked` outcome). -/
theorem c9_decode_error_condition :
    (∀ s : String, (arbiter.CreateGameArbiter s).isErr = true ↔
      (s ≠ "" ∧ (s.data.splitOn ' ').length < 4)) ∧
    (arbiter.CreateGameArbiter "8/8/8/8/8/8/8/8 w - e").isPanic = true ∧
    (arbiter.CreateGameArbiter "////////k w - - 0 1").isPanic = true := by
  refine ⟨?_, by decide, by decide⟩
  intro s
  by_cases hs : s = ""
  · subst hs
    constructor
    · intro h
      exact absurd h (by decide)
    · rintro ⟨h, _⟩
      exact absurd rfl h
  · simp only [arbiter.CreateGameArbiter, if_neg hs]
    by_cases hlen : (s.data.splitOn ' ').length < 4
    · rw [if_pos hlen]
      simp [arbiter.FenResult.isErr, hs, hlen]
    · rw [if_neg hlen]
      rcases hp : arbiter.parsePlacement ((s.data.splitOn ' ').getD 0 [])
          ⟨7, 0, fun _ => 0⟩ with _ | st
      · simp [arbiter.FenResult.isErr, hs, hlen]
      · simp only
        split_ifs <;>
          rcases h3 : (s.data.splitOn ' ').getD 3 [] with _ | ⟨c0, _ | ⟨c1, rest⟩⟩ <;>
          simp [arbiter.FenResult.isErr, hs, hlen]

/-- C9 (witness): the amended equivalence instantiated at a two-field
input, which is correctly rejected with the recoverable error. -/
theorem c9_witness :
    (arbiter.CreateGameArbiter "x y").isErr = true ↔
      (("x y" : String) ≠ "" ∧ ((("x y" : String).data.splitOn ' ').length < 4)) :=
  c9_decode_error_condition.1 "x y"

namespace arbiter

theorem boardGet_lit (B : Fin 12 → Nat) :
    boardGet B 0 = B 0 ∧ boardGet B 1 = B 1 ∧ boardGet B 2 = B 2 ∧
    boardGet B 3 = B 3 ∧ boardGet B 4 = B 4 ∧ boardGet B 5 = B 5 ∧
    boardGet B 6 = B 6 ∧ boardGet B 7 = B 7 ∧ boardGet B 8 = B 8 ∧
    boardGet B 9 = B 9 ∧ boardGet B 10 = B 10 ∧ boardGet B 11 = B 11 :=
  ⟨boardGet_fin 0, boardGet_fin 1, boardGet_fin 2, boardGet_fin 3,
   boardGet_fin 4, boardGet_fin 5, boardGet_fin 6, boardGet_fin 7,
   boardGet_fin 8, boardGet_fin 9, boardGet_fin 10, boardGet_fin 11⟩

theorem fenPieceChar_occupied {B : Fin 12 → Nat} {s : Int} (h0 : 0 ≤ s) (h64 : s < 64)
    (i : Fin 12) (hi : (B i).testBit s.toNat = true)
    (ho : ∀ j : Fin 12, j ≠ i → (B j).testBit s.toNat = false) :
    fenPieceIndex (fenPieceChar B s) = some ((i : Nat) : Int) := by
  obtain ⟨e0, e1, e2, e3, e4, e5, e6, e7, e8, e9, e10, e11⟩ := boardGet_lit B
  have key : ∀ j : Fin 12, (B j &&& shl s ≠ 0) ↔ (B j).testBit s.toNat :=
    fun j => and_shl_ne_zero h0 h64
  have hv : ∀ j : Fin 12, (B j).testBit s.toNat = decide (j = i) := by
    intro j
    rcases eq_or_ne j i with rfl | h
    · simp [hi]
    · simp [ho j h, h]
  simp only [fenPieceChar, WhiteKing, WhiteQueen, WhiteRook, WhiteBishop,
    WhiteKnight, WhitePawn, BlackKing, BlackQueen, BlackRook, BlackBishop,
    BlackKnight, BlackPawn, e0, e1, e2, e3, e4, e5, e6, e7, e8, e9, e10, e11,
    key, hv]
  fin_cases i <;> decide

end arbiter

namespace arbiter

theorem testBit_unique {B : Fin 12 → Nat}
    (hdisj : ∀ i j : Fin 12, i ≠ j → B i &&& B j = 0) {j : Fin 12} {t : Nat}
    (hj : (B j).testBit t = true) : ∀ k : Fin 12, k ≠ j → (B k).testBit t = false := by
  intro k hk
  by_contra h
  rw [Bool.not_eq_false] at h
  have h0 : (B k &&& B j).testBit t = true := by
    rw [Nat.testBit_land, h, hj]; rfl
  rw [hdisj k j hk] at h0
  simp at h0

theorem fenPieceChar_empty {B : Fin 12 → Nat} {s : Int} (h0 : 0 ≤ s) (h64 : s < 64)
    (ho : ∀ j : Fin 12, (B j).testBit s.toNat = false) :
    fenPieceIndex (fenPieceChar B s) = none := by
  obtain ⟨e0, e1, e2, e3, e4, e5, e6, e7, e8, e9, e10, e11⟩ := boardGet_lit B
  have key : ∀ j : Fin 12, (B j &&& shl s ≠ 0) ↔ (B j).testBit s.toNat :=
    fun j => and_shl_ne_zero h0 h64
  simp only [fenPieceChar, WhiteKing, WhiteQueen, WhiteRook, WhiteBishop,
    WhiteKnight, WhitePawn, BlackKing, BlackQueen, BlackRook, BlackBishop,
    BlackKnight, BlackPawn, e0, e1, e2, e3, e4, e5, e6, e7, e8, e9, e10, e11,
    key]
  simp only [ho]
  decide

theorem fenPieceChar_some_testBit {B : Fin 12 → Nat} {s : Int} (h0 : 0 ≤ s)
    (h64 : s < 64) (hdisj : ∀ i j : Fin 12, i ≠ j → B i &&& B j = 0) (i : Fin 12)
    (h : fenPieceIndex (fenPieceChar B s) = some ((i : Nat) : Int)) :
    (B i).testBit s.toNat = true := by
  by_cases hocc : ∃ j : Fin 12, (B j).testBit s.toNat = true
  · obtain ⟨j, hj⟩ := hocc
    rw [fenPieceChar_occupied h0 h64 j hj (testBit_unique hdisj hj)] at h
    have hji : j = i := Fin.val_injective (by exact_mod_cast Option.some.inj h)
    rw [← hji]; exact hj
  · push_neg at hocc
    rw [fenPieceChar_empty h0 h64 (fun j => by simpa using hocc j)] at h
    cases h

theorem fenPieceIndex_cases (c : Char) :
    fenPieceIndex c = none ∨ ∃ j : Fin 12, fenPieceIndex c = some ((j : Nat) : Int) := by
  unfold fenPieceIndex
  by_cases h0 : c = 'K'
  · rw [if_pos h0]
    exact Or.inr ⟨0, by decide⟩
  rw [if_neg h0]
  by_cases h1 : c = 'Q'
  · rw [if_pos h1]
    exact Or.inr ⟨1, by decide⟩
  rw [if_neg h1]
  by_cases h2 : c = 'R'
  · rw [if_pos h2]
    exact Or.inr ⟨2, by decide⟩
  rw [if_neg h2]
  by_cases h3 : c = 'B'
  · rw [if_pos h3]
    exact Or.inr ⟨3, by decide⟩
  rw [if_neg h3]
  by_cases h4 : c = 'N'
  · rw [if_pos h4]
    exact Or.inr ⟨4, by decide⟩
  rw [if_neg h4]
  by_cases h5 : c = 'P'
  · rw [if_pos h5]
    exact Or.inr ⟨5, by decide⟩
  rw [if_neg h5]
  by_cases h6 : c = 'k'
  · rw [if_pos h6]
    exact Or.inr ⟨6, by decide⟩
  rw [if_neg h6]
  by_cases h7 : c = 'q'
  · rw [if_pos h7]
    exact Or.inr ⟨7, by decide⟩
  rw [if_neg h7]
  by_cases h8 : c = 'r'
  · rw [if_pos h8]
    exact Or.inr ⟨8, by decide⟩
  rw [if_neg h8]
  by_cases h9 : c = 'b'
  · rw [if_pos h9]
    exact Or.inr ⟨9, by decide⟩
  rw [if_neg h9]
  by_cases h10 : c = 'n'
  · rw [if_pos h10]
    exact Or.inr ⟨10, by decide⟩
  rw [if_neg h10]
  by_cases h11 : c = 'p'
  · rw [if_pos h11]
    exact Or.inr ⟨11, by decide⟩
  rw [if_neg h11]
  exact Or.inl rfl

theorem fenSquareStep_apply (B acc : Fin 12 → Nat) (sq : Int) (i : Fin 12) :
    fenSquareStep B acc sq i =
      if fenPieceIndex (fenPieceChar B sq) = some ((i : Nat) : Int)
      then acc i ||| shl sq else acc i := by
  unfold fenSquareStep
  rcases fenPieceIndex_cases (fenPieceChar B sq) with h | ⟨j, h⟩
  · rw [h, if_neg (by simp)]
  · rw [h]
    show (boardSet acc ((j : Nat) : Int) (boardGet acc ((j : Nat) : Int) ||| shl sq)) i =
      if some ((j : Nat) : Int) = some ((i : Nat) : Int) then acc i ||| shl sq else acc i
    rw [boardGet_fin j, boardSet_fin j]
    rcases eq_or_ne j i with rfl | hji
    · rw [if_pos rfl, Function.update_same]
    · rw [if_neg (fun hc => hji (Fin.val_injective (by exact_mod_cast Option.some.inj hc))),
        Function.update_noteq (Ne.symm hji)]

end arbiter

namespace arbiter

theorem foldl_fenSquareStep_apply (B : Fin 12 → Nat) (L : List Int) :
    ∀ (acc : Fin 12 → Nat) (i : Fin 12),
      (List.foldl (fenSquareStep B) acc L) i =
        acc i ||| List.foldr (fun sq r =>
          (if fenPieceIndex (fenPieceChar B sq) = some ((i : Nat) : Int)
           then shl sq else 0) ||| r) 0 L := by
  induction L with
  | nil => intro acc i; simp
  | cons sq L ih =>
    intro acc i
    rw [List.foldl_cons, List.foldr_cons, ih, fenSquareStep_apply]
    by_cases h : fenPieceIndex (fenPieceChar B sq) = some ((i : Nat) : Int)
    · rw [if_pos h, if_pos h, Nat.lor_assoc]
    · rw [if_neg h, if_neg h, Nat.zero_or]

theorem testBit_foldr_or (B : Fin 12 → Nat) (i : Fin 12) (L : List Int) (t : Nat) :
    (List.foldr (fun sq r =>
        (if fenPieceIndex (fenPieceChar B sq) = some ((i : Nat) : Int)
         then shl sq else 0) ||| r) 0 L).testBit t =
      L.any (fun sq =>
        (if fenPieceIndex (fenPieceChar B sq) = some ((i : Nat) : Int)
         then shl sq else 0).testBit t) := by
  induction L with
  | nil => simp
  | cons sq L ih => rw [List.foldr_cons, List.any_cons, Nat.testBit_lor, ih]

theorem mem_fenSquareOrder :
    ∀ t : Nat, t < 64 → ((t : Int) ∈ fenSquareOrder) := by decide

theorem fenSquareOrder_bounds :
    ∀ sq ∈ fenSquareOrder, 0 ≤ sq ∧ sq < 64 := by decide

theorem foldl_fenSquareStep_eq (B : Fin 12 → Nat) (hB : ∀ i, B i < 2 ^ 64)
    (hdisj : ∀ i j : Fin 12, i ≠ j → B i &&& B j = 0) :
    List.foldl (fenSquareStep B) (fun _ => 0) fenSquareOrder = B := by
  funext i
  apply Nat.eq_of_testBit_eq
  intro t
  rw [foldl_fenSquareStep_apply, Nat.zero_or, testBit_foldr_or]
  rcases Nat.lt_or_ge t 64 with ht | ht
  · rcases hBt : (B i).testBit t with _ | _
    · rw [List.any_eq_false]
      intro sq hsq
      obtain ⟨hsq0, hsq64⟩ := fenSquareOrder_bounds sq hsq
      by_cases hc : fenPieceIndex (fenPieceChar B sq) = some ((i : Nat) : Int)
      · have hoc := fenPieceChar_some_testBit hsq0 hsq64 hdisj i hc
        rw [if_pos hc, shl_eq_pow hsq0 hsq64, Nat.testBit_two_pow]
        have hne : sq.toNat ≠ t := by
          intro heq
          rw [heq] at hoc
          rw [hoc] at hBt
          cases hBt
        simp [hne]
      · rw [if_neg hc]
        simp
    · rw [List.any_eq_true]
      refine ⟨(t : Int), mem_fenSquareOrder t ht, ?_⟩
      have h0 : (0 : Int) ≤ (t : Int) := Int.ofNat_nonneg t
      have h64 : ((t : Int) : Int) < 64 := by exact_mod_cast ht
      have htn : ((t : Int)).toNat = t := Int.toNat_natCast t
      rw [if_pos (fenPieceChar_occupied h0 h64 i (by rw [htn]; exact hBt)
        (fun j hj => by rw [htn]; exact testBit_unique hdisj hBt j hj)),
        shl_eq_pow h0 h64, htn, Nat.testBit_two_pow]
      simp
  · rw [testBit_ge_64 (hB i) ht, List.any_eq_false]
    intro sq hsq
    by_cases hc : fenPieceIndex (fenPieceChar B sq) = some ((i : Nat) : Int)
    · rw [if_pos hc]
      simp [testBit_ge_64 shl_lt ht]
    · rw [if_neg hc]
      simp

end arbiter

namespace arbiter

theorem toDigits_small :
    ∀ e : Nat, 1 ≤ e → e ≤ 8 → ∃ d : Char,
      Nat.toDigits 10 e = [d] ∧ d ∈ (['1','2','3','4','5','6','7','8'] : List Char) ∧
      byteSub d '0' = (e : Int) ∧ d ≠ '/' ∧ d ≠ ' ' := by
  intro e h1 h8
  interval_cases e
  · exact ⟨'1', by decide, by decide, by decide, by decide, by decide⟩
  · exact ⟨'2', by decide, by decide, by decide, by decide, by decide⟩
  · exact ⟨'3', by decide, by decide, by decide, by decide, by decide⟩
  · exact ⟨'4', by decide, by decide, by decide, by decide, by decide⟩
  · exact ⟨'5', by decide, by decide, by decide, by decide, by decide⟩
  · exact ⟨'6', by decide, by decide, by decide, by decide, by decide⟩
  · exact ⟨'7', by decide, by decide, by decide, by decide, by decide⟩
  · exact ⟨'8', by decide, by decide, by decide, by decide, by decide⟩

theorem intRange_cons {lo hi : Int} (h : lo < hi) :
    intRange lo hi = lo :: intRange (lo + 1) hi := by
  unfold intRange
  have hk : (hi - lo).toNat = (hi - (lo + 1)).toNat + 1 := by omega
  rw [hk, List.range_succ_eq_map, List.map_cons, List.map_map]
  congr 1
  · simp
  · apply List.map_congr_left
    intro n hn
    simp only [Function.comp_apply]
    push_cast
    ring

theorem fenSquareStep_space {B acc : Fin 12 → Nat} {sq : Int}
    (h : fenPieceChar B sq = ' ') : fenSquareStep B acc sq = acc := by
  unfold fenSquareStep
  rw [h]
  rfl

theorem parse_digitPrefix (r fi : Int) (Bacc : Fin 12 → Nat) (e : Nat) (he : e ≤ 8)
    (L : List Char) :
    parsePlacement ((if e > 0 then Nat.toDigits 10 e else []) ++ L)
        ⟨r, fi - (e : Int), Bacc⟩ =
      parsePlacement L ⟨r, fi, Bacc⟩ := by
  rcases Nat.eq_zero_or_pos e with he0 | hep
  · subst he0
    rw [if_neg (by omega), List.nil_append]
    exact congrArg (parsePlacement L) (by simp)
  · obtain ⟨d, hd1, hdmem, hdval, hdslash, hdspace⟩ := toDigits_small e hep he
    rw [if_pos (by omega), hd1, List.cons_append, List.nil_append]
    show parsePlacement (d :: L) _ = _
    rw [parsePlacement]
    rw [if_neg hdslash, if_pos hdmem, hdval]
    exact congrArg (parsePlacement L) (by simp)

end arbiter

namespace arbiter

theorem fenPieceChar_cases (B : Fin 12 → Nat) (s : Int) :
    fenPieceChar B s = ' ' ∨
      fenPieceChar B s ∈ (['K','Q','R','B','N','P','k','q','r','b','n','p'] : List Char) := by
  simp only [fenPieceChar]
  by_cases h0 : boardGet B WhiteKing &&& shl s ≠ 0
  · rw [if_pos h0]
    exact Or.inr (by decide)
  rw [if_neg h0]
  by_cases h1 : boardGet B WhiteQueen &&& shl s ≠ 0
  · rw [if_pos h1]
    exact Or.inr (by decide)
  rw [if_neg h1]
  by_cases h2 : boardGet B WhiteRook &&& shl s ≠ 0
  · rw [if_pos h2]
    exact Or.inr (by decide)
  rw [if_neg h2]
  by_cases h3 : boardGet B WhiteBishop &&& shl s ≠ 0
  · rw [if_pos h3]
    exact Or.inr (by decide)
  rw [if_neg h3]
  by_cases h4 : boardGet B WhiteKnight &&& shl s ≠ 0
  · rw [if_pos h4]
    exact Or.inr (by decide)
  rw [if_neg h4]
  by_cases h5 : boardGet B WhitePawn &&& shl s ≠ 0
  · rw [if_pos h5]
    exact Or.inr (by decide)
  rw [if_neg h5]
  by_cases h6 : boardGet B BlackKing &&& shl s ≠ 0
  · rw [if_pos h6]
    exact Or.inr (by decide)
  rw [if_neg h6]
  by_cases h7 : boardGet B BlackQueen &&& shl s ≠ 0
  · rw [if_pos h7]
    exact Or.inr (by decide)
  rw [if_neg h7]
  by_cases h8 : boardGet B BlackRook &&& shl s ≠ 0
  · rw [if_pos h8]
    exact Or.inr (by decide)
  rw [if_neg h8]
  by_cases h9 : boardGet B BlackBishop &&& shl s ≠ 0
  · rw [if_pos h9]
    exact Or.inr (by decide)
  rw [if_neg h9]
  by_cases h10 : boardGet B BlackKnight &&& shl s ≠ 0
  · rw [if_pos h10]
    exact Or.inr (by decide)
  rw [if_neg h10]
  by_cases h11 : boardGet B BlackPawn &&& shl s ≠ 0
  · rw [if_pos h11]
    exact Or.inr (by decide)
  rw [if_neg h11]
  exact Or.inl rfl

theorem parse_encRank (B : Fin 12 → Nat) (r : Int) (hr0 : 0 ≤ r) :
    ∀ (k f e : Nat), f + k = 8 → e ≤ f →
    ∀ (rest : List Char) (Bacc : Fin 12 → Nat),
    parsePlacement (encRankAux B r (intRange (f : Int) 8) e ++ rest)
        ⟨r, (f : Int) - (e : Int), Bacc⟩ =
      parsePlacement rest
        ⟨r, 8, List.foldl (fenSquareStep B) Bacc
            ((intRange (f : Int) 8).map (fun x => r * 8 + x))⟩ := by
  intro k
  induction k with
  | zero =>
    intro f e hfk he rest Bacc
    have hf : f = 8 := by omega
    subst hf
    have h88 : intRange ((8 : Nat) : Int) 8 = [] := by decide
    rw [h88]
    show parsePlacement ((if e > 0 then Nat.toDigits 10 e else []) ++ rest) _ = _
    rw [parse_digitPrefix r ((8 : Nat) : Int) Bacc e (by omega) rest]
    exact congrArg (parsePlacement rest) (by simp)
  | succ k ih =>
    intro f e hfk he rest Bacc
    have hf8 : (f : Int) < 8 := by exact_mod_cast (by omega : f < 8)
    rw [intRange_cons hf8]
    simp only [encRankAux]
    by_cases hsp : fenPieceChar B (r * 8 + (f : Int)) = ' '
    · rw [if_pos hsp]
      have ih' := ih (f + 1) (e + 1) (by omega) (by omega) rest Bacc
      push_cast at ih'
      rw [show ((f : Int) - (e : Int)) = ((f : Int) + 1) - ((e : Int) + 1) by ring]
      rw [ih']
      simp only [List.map_cons, List.foldl_cons, fenSquareStep_space hsp]
    · rw [if_neg hsp]
      have hnd : (fenPieceChar B (r * 8 + (f : Int)) ≠ '/') ∧
          fenPieceChar B (r * 8 + (f : Int)) ∉
            (['1','2','3','4','5','6','7','8'] : List Char) := by
        rcases fenPieceChar_cases B (r * 8 + (f : Int)) with h | h
        · exact absurd h hsp
        · simp only [List.mem_cons, List.not_mem_nil, or_false] at h
          rcases h with h|h|h|h|h|h|h|h|h|h|h|h <;> rw [h] <;>
            exact ⟨by decide, by decide⟩
      rw [List.append_assoc, List.cons_append,
        parse_digitPrefix r ((f : Nat) : Int) Bacc e (by omega)]
      simp only [parsePlacement]
      rw [if_neg hnd.1, if_neg hnd.2, if_neg (by omega : ¬(r * 8 + ((f : Nat) : Int) < 0))]
      show parsePlacement (encRankAux B r (intRange ((f : Int) + 1) 8) 0 ++ rest)
          ⟨r, (f : Int) + 1, fenSquareStep B Bacc (r * 8 + (f : Int))⟩ = _
      have ih' := ih (f + 1) 0 (by omega) (by omega) rest
        (fenSquareStep B Bacc (r * 8 + (f : Int)))
      push_cast at ih'
      try simp only [sub_zero] at ih'
      rw [ih']
      simp only [List.map_cons, List.foldl_cons]

end arbiter

namespace arbiter

theorem parse_encRank0 (B : Fin 12 → Nat) (r : Int) (hr0 : 0 ≤ r)
    (rest : List Char) (Bacc : Fin 12 → Nat) :
    parsePlacement (encRankAux B r (intRange 0 8) 0 ++ rest) ⟨r, 0, Bacc⟩ =
      parsePlacement rest
        ⟨r, 8, List.foldl (fenSquareStep B) Bacc
            ((intRange 0 8).map (fun x => r * 8 + x))⟩ := by
  have h := parse_encRank B r hr0 8 0 0 (by omega) (by omega) rest Bacc
  push_cast at h
  simpa using h

theorem parse_rankStep (B : Fin 12 → Nat) (r : Int) (hr0 : 0 ≤ r)
    (rest : List Char) (Bacc : Fin 12 → Nat) :
    parsePlacement (encRankAux B r (intRange 0 8) 0 ++ ('/' :: rest)) ⟨r, 0, Bacc⟩ =
      parsePlacement rest
        ⟨r - 1, 0, List.foldl (fenSquareStep B) Bacc
            ((intRange 0 8).map (fun x => r * 8 + x))⟩ := by
  rw [parse_encRank0 B r hr0, parsePlacement, if_pos rfl]

theorem parse_placementAux (B : Fin 12 → Nat) (rest : List Char) (Bacc : Fin 12 → Nat) :
    parsePlacement (placementAux B [7, 6, 5, 4, 3, 2, 1, 0] ++ rest) ⟨7, 0, Bacc⟩ =
      parsePlacement rest ⟨0, 8, List.foldl (fenSquareStep B) Bacc fenSquareOrder⟩ := by
  simp only [placementAux, List.append_assoc, List.singleton_append, List.cons_append,
    List.nil_append]
  norm_num
  rw [parse_rankStep B 7 (by norm_num)]
  norm_num
  rw [parse_rankStep B 6 (by norm_num)]
  norm_num
  rw [parse_rankStep B 5 (by norm_num)]
  norm_num
  rw [parse_rankStep B 4 (by norm_num)]
  norm_num
  rw [parse_rankStep B 3 (by norm_num)]
  norm_num
  rw [parse_rankStep B 2 (by norm_num)]
  norm_num
  rw [parse_rankStep B 1 (by norm_num)]
  norm_num
  rw [parse_encRank0 B 0 (by norm_num)]
  simp [fenSquareOrder, List.foldl_append]

end arbiter

namespace arbiter

theorem parse_placement_board (B : Fin 12 → Nat) (hB : ∀ i, B i < 2 ^ 64)
    (hdisj : ∀ i j : Fin 12, i ≠ j → B i &&& B j = 0) :
    parsePlacement (placementAux B [7, 6, 5, 4, 3, 2, 1, 0]) ⟨7, 0, fun _ => 0⟩ =
      some ⟨0, 8, B⟩ := by
  have h := parse_placementAux B [] (fun _ => 0)
  rw [List.append_nil] at h
  rw [h, parsePlacement, foldl_fenSquareStep_eq B hB hdisj]

theorem castle_chunk_spec (wc bc : Int) (hw0 : 0 ≤ wc) (hw4 : wc < 4)
    (hb0 : 0 ≤ bc) (hb4 : bc < 4) :
    (' ' ∉ castleChunk wc bc) ∧
    ((if 'Q' ∈ castleChunk wc bc then
        ior (if 'K' ∈ castleChunk wc bc then ior 0 1 else 0) 2
      else if 'K' ∈ castleChunk wc bc then ior 0 1 else 0) = wc) ∧
    ((if 'q' ∈ castleChunk wc bc then
        ior (if 'k' ∈ castleChunk wc bc then ior 0 1 else 0) 2
      else if 'k' ∈ castleChunk wc bc then ior 0 1 else 0) = bc) := by
  interval_cases wc <;> interval_cases bc <;>
    exact ⟨by decide, by decide, by decide⟩

theorem byteSub_a : ∀ m : Nat, m < 8 →
    byteSub (Char.ofNat ('a'.toNat + m)) 'a' = (m : Int) := by
  intro m hm
  interval_cases m <;> decide

theorem byteSub_1 : ∀ n : Nat, n < 8 →
    byteSub (Char.ofNat ('1'.toNat + n)) '1' = (n : Int) := by
  intro n hn
  interval_cases n <;> decide

theorem epChar_a_props : ∀ m : Nat, m < 8 →
    Char.ofNat ('a'.toNat + m) ≠ '-' ∧ Char.ofNat ('a'.toNat + m) ≠ ' ' := by
  intro m hm
  interval_cases m <;> exact ⟨by decide, by decide⟩

theorem epChar_1_props : ∀ n : Nat, n < 8 →
    Char.ofNat ('1'.toNat + n) ≠ ' ' := by
  intro n hn
  interval_cases n <;> decide

end arbiter

namespace arbiter

theorem space_not_mem_encRankAux (B : Fin 12 → Nat) (r : Int) :
    ∀ (files : List Int) (e : Nat), files.length + e ≤ 8 →
      ' ' ∉ encRankAux B r files e := by
  intro files
  induction files with
  | nil =>
    intro e he
    simp only [encRankAux]
    by_cases h : e > 0
    · rw [if_pos h]
      obtain ⟨d, hd1, _, _, _, hdsp⟩ := toDigits_small e (by omega) (by simpa using he)
      rw [hd1]
      simp
      exact fun hc => hdsp hc.symm
    · rw [if_neg h]
      simp
  | cons f fs ih =>
    intro e he
    simp only [encRankAux]
    by_cases hsp : fenPieceChar B (r * 8 + f) = ' '
    · rw [if_pos hsp]
      exact ih (e + 1) (by simp at he ⊢; omega)
    · rw [if_neg hsp]
      intro hmem
      rcases List.mem_append.mp hmem with h | h
      · by_cases he0 : e > 0
        · obtain ⟨d, hd1, _, _, _, hdsp⟩ := toDigits_small e (by omega) (by simp at he; omega)
          rw [if_pos he0, hd1] at h
          simp at h
          exact hdsp h.symm
        · rw [if_neg he0] at h
          simp at h
      · rcases List.mem_cons.mp h with h | h
        · exact hsp h.symm
        · exact ih 0 (by simp at he ⊢; omega) h

theorem space_not_mem_placementAux (B : Fin 12 → Nat) :
    ∀ rs : List Int, ' ' ∉ placementAux B rs := by
  intro rs
  induction rs with
  | nil => simp [placementAux]
  | cons r rs ih =>
    simp only [placementAux]
    intro hmem
    rcases List.mem_append.mp hmem with h | h
    · rcases List.mem_append.mp h with h | h
      · exact space_not_mem_encRankAux B r (intRange 0 8) 0 (by decide) h
      · by_cases hr : r > 0
        · rw [if_pos hr] at h
          simp at h
        · rw [if_neg hr] at h
          simp at h
    · exact ih h

theorem epChunk_zero : epChunk 0 = ['-'] := by decide

theorem epChunk_two_pow (k : Nat) (hk : k < 64) :
    epChunk (2 ^ k) =
      [Char.ofNat ('a'.toNat + k % 8), Char.ofNat ('1'.toNat + k / 8)] := by
  simp only [epChunk]
  rw [if_pos (by positivity), findSetBit_two_pow hk,
    imod_nonneg_eq (Int.ofNat_nonneg k), idiv_nonneg_eq (Int.ofNat_nonneg k)]
  have h1 : (((k : Int)) % 8).toNat = k % 8 := by omega
  have h2 : (((k : Int)) / 8).toNat = k / 8 := by omega
  rw [h1, h2]

theorem intercalate_six (l1 l2 l3 l4 l5 l6 : List Char) :
    [' '].intercalate [l1, l2, l3, l4, l5, l6] =
      l1 ++ ' ' :: (l2 ++ ' ' :: (l3 ++ ' ' :: (l4 ++ ' ' :: (l5 ++ ' ' :: l6)))) := by
  simp [List.intercalate]

end arbiter

namespace arbiter

theorem decode_parts (a : ChessArbiter) (tc : Char) (C E : List Char)
    (htc : tc ≠ ' ') (hC : ' ' ∉ C) (hE : ' ' ∉ E)
    (hdata : (GameArbiterToFEN a).data =
      [' '].intercalate
        [placementAux a.Board [7, 6, 5, 4, 3, 2, 1, 0], [tc], C, E, ['0'], ['1']]) :
    (GameArbiterToFEN a).data.splitOn ' ' =
      [placementAux a.Board [7, 6, 5, 4, 3, 2, 1, 0], [tc], C, E, ['0'], ['1']] := by
  rw [hdata]
  apply List.splitOn_intercalate
  · intro l hl
    simp only [List.mem_cons, List.not_mem_nil, or_false] at hl
    rcases hl with rfl | rfl | rfl | rfl | rfl | rfl
    · exact space_not_mem_placementAux a.Board _
    · simp only [List.mem_singleton]
      exact fun h => htc h.symm
    · exact hC
    · exact hE
    · simp
    · simp
  · simp

end arbiter

namespace arbiter

set_option maxHeartbeats 1000000 in
/-- C4 (amended): for every position whose bitboards are 64-bit and pairwise
disjoint, whose turn is 0 or 1, whose castling words are in `0..3`, and whose
turn-relevant en-passant field (`EnPassantBlack` when White is to move,
`EnPassantWhite` when Black is to move - the field the encoder reads) is
empty or a single bit, decoding the encoded FEN reproduces the piece
placement, the side to move, both castling words, and the turn-relevant
en-passant field, while the other en-passant field is zeroed.  The original
claim fails because `DoMove` stores a fresh double-push target in the field
the encoder does NOT read for the resulting side to move, so that target is
dropped (see the counterexample). -/
theorem c4_fen_round_trip (a : ChessArbiter)
    (hB : ∀ i : Fin 12, a.Board i < 2 ^ 64)
    (hdisj : ∀ i j : Fin 12, i ≠ j → a.Board i &&& a.Board j = 0)
    (hturn : a.TurnOfPlayer = 0 ∨ a.TurnOfPlayer = 1)
    (hwc0 : 0 ≤ a.WhiteCastle) (hwc4 : a.WhiteCastle < 4)
    (hbc0 : 0 ≤ a.BlackCastle) (hbc4 : a.BlackCastle < 4)
    (hep : (if a.TurnOfPlayer = 0 then a.EnPassantBlack else a.EnPassantWhite) = 0 ∨
      ∃ k : Nat, k < 64 ∧
        (if a.TurnOfPlayer = 0 then a.EnPassantBlack else a.EnPassantWhite) = 2 ^ k) :
    ∃ b : ChessArbiter,
      (CreateGameArbiter (GameArbiterToFEN a)).board? = some b ∧
      b.Board = a.Board ∧ b.TurnOfPlayer = a.TurnOfPlayer ∧
      b.WhiteCastle = a.WhiteCastle ∧ b.BlackCastle = a.BlackCastle ∧
      (if a.TurnOfPlayer = 0 then
        b.EnPassantBlack = a.EnPassantBlack ∧ b.EnPassantWhite = 0
      else
        b.EnPassantWhite = a.EnPassantWhite ∧ b.EnPassantBlack = 0) := by
  obtain ⟨hCsp, hCw, hCb⟩ :=
    castle_chunk_spec a.WhiteCastle a.BlackCastle hwc0 hwc4 hbc0 hbc4
  rcases hturn with ht | ht
  · rw [if_pos ht] at hep
    rcases hep with hep | ⟨k, hk, hep⟩
    · -- white to move, the field the encoder reads is empty
      have hdata : (GameArbiterToFEN a).data =
          [' '].intercalate
            [placementAux a.Board [7, 6, 5, 4, 3, 2, 1, 0], ['w'],
             castleChunk a.WhiteCastle a.BlackCastle, epChunk 0, ['0'], ['1']] := by
        rw [intercalate_six]
        simp only [GameArbiterToFEN, castleChunk, epChunk, ht, hep]
        norm_num
      have hsplit := decode_parts a 'w' _ _ (by decide) hCsp
        (by rw [epChunk_zero]; decide) hdata
      have hne : GameArbiterToFEN a ≠ "" := by
        intro hc
        have hd : (GameArbiterToFEN a).data = [] := by rw [hc]
        rw [hdata, intercalate_six] at hd
        simp at hd
      obtain ⟨s, hgen⟩ : ∃ s : String, GameArbiterToFEN a = s := ⟨_, rfl⟩
      rw [hgen] at hsplit hne ⊢
      simp only [CreateGameArbiter]
      rw [if_neg hne, hsplit]
      rw [if_neg (by norm_num :
        ¬(([placementAux a.Board [7, 6, 5, 4, 3, 2, 1, 0], ['w'],
           castleChunk a.WhiteCastle a.BlackCastle, epChunk 0, ['0'], ['1']] :
           List (List Char)).length < 4))]
      simp only [List.getD_cons_zero, List.getD_cons_succ]
      rw [parse_placement_board a.Board hB hdisj]
      simp only [epChunk_zero, FenResult.board?, if_true]
      refine ⟨_, rfl, rfl, ht.symm, hCw, hCb, ?_⟩
      rw [if_pos ht]
      exact ⟨hep.symm, rfl⟩
    · -- white to move, single-bit target in EnPassantBlack
      have hm8 : k % 8 < 8 := Nat.mod_lt _ (by norm_num)
      have hd8 : k / 8 < 8 := by omega
      have hdata : (GameArbiterToFEN a).data =
          [' '].intercalate
            [placementAux a.Board [7, 6, 5, 4, 3, 2, 1, 0], ['w'],
             castleChunk a.WhiteCastle a.BlackCastle, epChunk (2 ^ k), ['0'], ['1']] := by
        rw [intercalate_six]
        simp only [GameArbiterToFEN, castleChunk, epChunk, ht, hep]
        norm_num
      have hEsp : ' ' ∉ epChunk (2 ^ k) := by
        rw [epChunk_two_pow k hk]
        intro hmem
        simp only [List.mem_cons, List.not_mem_nil, or_false] at hmem
        rcases hmem with h | h
        · exact (epChar_a_props _ hm8).2 h.symm
        · exact epChar_1_props _ hd8 h.symm
      have hsplit := decode_parts a 'w' _ _ (by decide) hCsp hEsp hdata
      have hne : GameArbiterToFEN a ≠ "" := by
        intro hc
        have hd : (GameArbiterToFEN a).data = [] := by rw [hc]
        rw [hdata, intercalate_six] at hd
        simp at hd
      obtain ⟨s, hgen⟩ : ∃ s : String, GameArbiterToFEN a = s := ⟨_, rfl⟩
      rw [hgen] at hsplit hne ⊢
      simp only [CreateGameArbiter]
      rw [if_neg hne, hsplit]
      rw [if_neg (by norm_num :
        ¬(([placementAux a.Board [7, 6, 5, 4, 3, 2, 1, 0], ['w'],
           castleChunk a.WhiteCastle a.BlackCastle, epChunk (2 ^ k), ['0'], ['1']] :
           List (List Char)).length < 4))]
      simp only [List.getD_cons_zero, List.getD_cons_succ]
      rw [parse_placement_board a.Board hB hdisj]
      rw [epChunk_two_pow k hk]
      have hcne : ¬([Char.ofNat ('a'.toNat + k % 8),
          Char.ofNat ('1'.toNat + k / 8)] = (['-'] : List Char)) := by
        simp [(epChar_a_props _ hm8).1]
      simp only [FenResult.board?, if_true, hcne, if_false]
      refine ⟨_, rfl, rfl, ht.symm, hCw, hCb, ?_⟩
      rw [if_pos ht, byteSub_1 _ hd8, byteSub_a _ hm8]
      have hsq : ((k / 8 : Nat) : Int) * 8 + ((k % 8 : Nat) : Int) = (k : Int) := by
        omega
      rw [hsq, shl_eq_pow (Int.ofNat_nonneg k) (by exact_mod_cast hk),
        Int.toNat_natCast]
      exact ⟨hep.symm, rfl⟩
  · rw [if_neg (by rw [ht]; norm_num)] at hep
    rcases hep with hep | ⟨k, hk, hep⟩
    · -- black to move, the field the encoder reads is empty
      have hdata : (GameArbiterToFEN a).data =
          [' '].intercalate
            [placementAux a.Board [7, 6, 5, 4, 3, 2, 1, 0], ['b'],
             castleChunk a.WhiteCastle a.BlackCastle, epChunk 0, ['0'], ['1']] := by
        rw [intercalate_six]
        simp only [GameArbiterToFEN, castleChunk, epChunk, ht, hep]
        norm_num
      have hsplit := decode_parts a 'b' _ _ (by decide) hCsp
        (by rw [epChunk_zero]; decide) hdata
      have hne : GameArbiterToFEN a ≠ "" := by
        intro hc
        have hd : (GameArbiterToFEN a).data = [] := by rw [hc]
        rw [hdata, intercalate_six] at hd
        simp at hd
      obtain ⟨s, hgen⟩ : ∃ s : String, GameArbiterToFEN a = s := ⟨_, rfl⟩
      rw [hgen] at hsplit hne ⊢
      simp only [CreateGameArbiter]
      rw [if_neg hne, hsplit]
      rw [if_neg (by norm_num :
        ¬(([placementAux a.Board [7, 6, 5, 4, 3, 2, 1, 0], ['b'],
           castleChunk a.WhiteCastle a.BlackCastle, epChunk 0, ['0'], ['1']] :
           List (List Char)).length < 4))]
      simp only [List.getD_cons_zero, List.getD_cons_succ]
      rw [parse_placement_board a.Board hB hdisj]
      simp only [epChunk_zero, FenResult.board?]
      refine ⟨_, rfl, rfl, ht.symm, hCw, hCb, ?_⟩
      rw [if_neg (by rw [ht]; norm_num)]
      exact ⟨hep.symm, rfl⟩
    · -- black to move, single-bit target in EnPassantWhite
      have hm8 : k % 8 < 8 := Nat.mod_lt _ (by norm_num)
      have hd8 : k / 8 < 8 := by omega
      have hdata : (GameArbiterToFEN a).data =
          [' '].intercalate
            [placementAux a.Board [7, 6, 5, 4, 3, 2, 1, 0], ['b'],
             castleChunk a.WhiteCastle a.BlackCastle, epChunk (2 ^ k), ['0'], ['1']] := by
        rw [intercalate_six]
        simp only [GameArbiterToFEN, castleChunk, epChunk, ht, hep]
        norm_num
      have hEsp : ' ' ∉ epChunk (2 ^ k) := by
        rw [epChunk_two_pow k hk]
        intro hmem
        simp only [List.mem_cons, List.not_mem_nil, or_false] at hmem
        rcases hmem with h | h
        · exact (epChar_a_props _ hm8).2 h.symm
        · exact epChar_1_props _ hd8 h.symm
      have hsplit := decode_parts a 'b' _ _ (by decide) hCsp hEsp hdata
      have hne : GameArbiterToFEN a ≠ "" := by
        intro hc
        have hd : (GameArbiterToFEN a).data = [] := by rw [hc]
        rw [hdata, intercalate_six] at hd
        simp at hd
      obtain ⟨s, hgen⟩ : ∃ s : String, GameArbiterToFEN a = s := ⟨_, rfl⟩
      rw [hgen] at hsplit hne ⊢
      simp only [CreateGameArbiter]
      rw [if_neg hne, hsplit]
      rw [if_neg (by norm_num :
        ¬(([placementAux a.Board [7, 6, 5, 4, 3, 2, 1, 0], ['b'],
           castleChunk a.WhiteCastle a.BlackCastle, epChunk (2 ^ k), ['0'], ['1']] :
           List (List Char)).length < 4))]
      simp only [List.getD_cons_zero, List.getD_cons_succ]
      rw [parse_placement_board a.Board hB hdisj]
      rw [epChunk_two_pow k hk]
      have hcne : ¬([Char.ofNat ('a'.toNat + k % 8),
          Char.ofNat ('1'.toNat + k / 8)] = (['-'] : List Char)) := by
        simp [(epChar_a_props _ hm8).1]
      simp only [FenResult.board?, hcne, if_false]
      refine ⟨_, rfl, rfl, ht.symm, hCw, hCb, ?_⟩
      rw [if_neg (by rw [ht]; norm_num), byteSub_1 _ hd8, byteSub_a _ hm8]
      have hsq : ((k / 8 : Nat) : Int) * 8 + ((k % 8 : Nat) : Int) = (k : Int) := by
        omega
      rw [hsq, shl_eq_pow (Int.ofNat_nonneg k) (by exact_mod_cast hk),
        Int.toNat_natCast]
      exact ⟨hep.symm, rfl⟩

end arbiter

/-- C4 (counterexample): the position after 1.e4 is reachable and carries the
en-passant target e3 in `EnPassantBlack`, but encoding writes `-` (the
encoder reads `EnPassantWhite` when Black is to move) and decoding therefore
returns a position with both en-passant fields zero: the round trip loses
the en-passant target of the original claim. -/
theorem c4_counterexample :
    arbiter.Reachable Fix.afterE4 ∧
    Fix.afterE4.EnPassantBlack = 2 ^ 20 ∧
    ((arbiter.CreateGameArbiter (arbiter.GameArbiterToFEN Fix.afterE4)).board?.map
      (fun b => (b.EnPassantWhite, b.EnPassantBlack))) = some (0, 0) := by
  refine ⟨?_, by decide, by decide⟩
  have h : Fix.afterE4 = arbiter.gameStep arbiter.startPos Fix.mvE2E4 := rfl
  rw [h]
  exact arbiter.Reachable.step arbiter.Reachable.start (by decide)

/-- C4 (witness): the amended round trip applied to the start position with
en-passant target e3 for Black recorded in `EnPassantBlack` (the field the
encoder reads when White is to move): every hypothesis is discharged by
evaluation and the round trip preserves all tracked fields. -/
theorem c4_witness :
    ∃ b : Chess.ChessArbiter,
      (arbiter.CreateGameArbiter (arbiter.GameArbiterToFEN
        { arbiter.startPos with EnPassantBlack := 2 ^ 20 })).board? = some b ∧
      b.Board = ({ arbiter.startPos with EnPassantBlack := 2 ^ 20 } : Chess.ChessArbiter).Board ∧
      b.TurnOfPlayer = ({ arbiter.startPos with EnPassantBlack := 2 ^ 20 } : Chess.ChessArbiter).TurnOfPlayer ∧
      b.WhiteCastle = ({ arbiter.startPos with EnPassantBlack := 2 ^ 20 } : Chess.ChessArbiter).WhiteCastle ∧
      b.BlackCastle = ({ arbiter.startPos with EnPassantBlack := 2 ^ 20 } : Chess.ChessArbiter).BlackCastle ∧
      (if ({ arbiter.startPos with EnPassantBlack := 2 ^ 20 } : Chess.ChessArbiter).TurnOfPlayer = 0 then
        b.EnPassantBlack = ({ arbiter.startPos with EnPassantBlack := 2 ^ 20 } : Chess.ChessArbiter).EnPassantBlack ∧
        b.EnPassantWhite = 0
      else
        b.EnPassantWhite = ({ arbiter.startPos with EnPassantBlack := 2 ^ 20 } : Chess.ChessArbiter).EnPassantWhite ∧
        b.EnPassantBlack = 0) :=
  arbiter.c4_fen_round_trip { arbiter.startPos with EnPassantBlack := 2 ^ 20 }
    (by decide) (by decide) (Or.inl rfl) (by decide) (by decide) (by decide) (by decide)
    (Or.inr ⟨20, by decide, by decide⟩)

